import Mathlib

/-!
SimpleWAF request filter (`dllmain.cpp`)

A shallow embedding of the native IIS module: the path validator `ValidatePath`,
the host classifier `IsIpHost`, the logger `LogBlockedUrl`, `BlockRequest` and the
request hook `SimpleWafModule::OnBeginRequest`, followed by theorems about them.

Conventions of the embedding.

* A byte is a natural number (`unsigned char` value, 0..255).  Character constants
  are written as their ASCII codes: `'%' = 37`, `'.' = 46`, `'0' = 48`, `'9' = 57`,
  `':' = 58`, `'?' = 63`, `'A' = 65`, `'F' = 70`, `'[' = 91`, `'a' = 97`, `'f' = 102`.
  `IsIpHost` receives `char`; every constant it compares with is below 128, so a byte
  `b ≥ 128` (a negative `char`) fails each comparison in either reading.
* A pointer is a buffer (`List Nat`) or null (`none`); the declared length travels
  separately, as in the source.  Reading `p[i]` is `p[i]?`, and a read outside the
  buffer is the fault `Fault.outOfBounds`.
* `USHORT` arithmetic is arithmetic on `Nat` reduced modulo `65536` where the source
  stores into a `USHORT` (`++i`, `i += 2`, `static_cast<USHORT>`); `i + 2 >= len` is
  computed in `int` and is not reduced.
* The two `for` loops are recursive functions with a step budget; the callers hand
  them `len + 1` steps, and running out of steps is the fault `Fault.outOfFuel`.
-/

namespace SimpleWaf

/-! ## Substatus codes (400.x) -/

def SUBSTATUS_URL_TOO_LONG : Nat := 1001
def SUBSTATUS_RAW_UNICODE : Nat := 1002
def SUBSTATUS_COLON_IN_PATH : Nat := 1003
def SUBSTATUS_BAD_PERCENT : Nat := 1004
def SUBSTATUS_IP_HOST : Nat := 1005

/-- Ways in which a run of the embedded code can fail to produce a value. -/
inductive Fault where
  | outOfBounds
  | outOfFuel
deriving DecidableEq, Repr

deriving instance DecidableEq for Except

/-- What `ValidatePath` hands back: the returned `bool` and the two out-parameters
`reason` (a string constant or `nullptr`) and `substatus`. -/
structure PathResult where
  ret : Bool
  reason : Option String
  substatus : Nat
deriving DecidableEq, Repr

/-- State of the out-parameters on the `return true` path: `reason = nullptr`,
`substatus = 0`. -/
def PathResult.pass : PathResult := ⟨true, none, 0⟩

def PathResult.urlTooLong : PathResult := ⟨false, some "URL_TOO_LONG", SUBSTATUS_URL_TOO_LONG⟩
def PathResult.rawUnicode : PathResult := ⟨false, some "RAW_UNICODE", SUBSTATUS_RAW_UNICODE⟩
def PathResult.colonInPath : PathResult := ⟨false, some "COLON_IN_PATH", SUBSTATUS_COLON_IN_PATH⟩
def PathResult.badPercent : PathResult :=
  ⟨false, some "BAD_PERCENT_ENCODING", SUBSTATUS_BAD_PERCENT⟩

/-- `IsHex`: `'0'..'9'`, `'A'..'F'`, `'a'..'f'`. -/
def IsHex (c : Nat) : Bool :=
  (decide (c ≥ 48) && decide (c ≤ 57)) ||
  (decide (c ≥ 65) && decide (c ≤ 70)) ||
  (decide (c ≥ 97) && decide (c ≤ 102))

/-- The `for (USHORT i = 0; i < len; ++i)` loop of `ValidatePath`, entered at index `i`
with the given step budget (first argument after `len`). -/
def ValidatePath.loop (p : List Nat) (len : Nat) : Nat → Nat → Except Fault PathResult
  | 0, _ => .error .outOfFuel
  | fuel + 1, i =>
    if i < len then
      match p[i]? with
      | none => .error .outOfBounds
      | some c =>
        if c = 63 then .ok PathResult.pass
        else if c ≥ 128 then .ok PathResult.rawUnicode
        else if c = 58 then .ok PathResult.colonInPath
        else if c = 37 then
          if i + 2 ≥ len then .ok PathResult.badPercent
          else
            match p[i + 1]? with
            | none => .error .outOfBounds
            | some c1 =>
              if !IsHex c1 then .ok PathResult.badPercent
              else
                match p[i + 2]? with
                | none => .error .outOfBounds
                | some c2 =>
                  if !IsHex c2 then .ok PathResult.badPercent
                  else ValidatePath.loop p len fuel (((i + 2) % 65536 + 1) % 65536)
        else ValidatePath.loop p len fuel ((i + 1) % 65536)
    else .ok PathResult.pass

/-- `ValidatePath(p, len, reason, substatus)`. -/
def ValidatePath (p : List Nat) (len : Nat) : Except Fault PathResult :=
  if len > 16384 then .ok PathResult.urlTooLong
  else ValidatePath.loop p len (len + 1) 0

/-- The `for (USHORT i = 0; i < len; ++i)` loop of `IsIpHost`. -/
def IsIpHost.loop (host : List Nat) (len : Nat) : Nat → Nat → Except Fault Bool
  | 0, _ => .error .outOfFuel
  | fuel + 1, i =>
    if i < len then
      match host[i]? with
      | none => .error .outOfBounds
      | some c =>
        if c = 58 then .ok true
        else if (decide (c ≥ 48) && decide (c ≤ 57)) || decide (c = 46) then
          IsIpHost.loop host len fuel ((i + 1) % 65536)
        else .ok false
    else .ok true

/-- `IsIpHost(host, len)`; `host = none` is the null pointer. -/
def IsIpHost (host : Option (List Nat)) (len : Nat) : Except Fault Bool :=
  match host with
  | none => .ok true
  | some h =>
    if len = 0 then .ok true
    else
      match h[0]? with
      | none => .error .outOfBounds
      | some c =>
        if c = 91 then .ok true
        else IsIpHost.loop h len (len + 1) 0

/-- Bytes of a string constant. -/
def bytes (s : String) : List Nat := s.toList.map Char.toNat

/-! ## Host interface and effects -/

inductive REQUEST_NOTIFICATION_STATUS where
  | RQ_NOTIFICATION_CONTINUE
  | RQ_NOTIFICATION_FINISH_REQUEST
deriving DecidableEq, Repr

/-- `HTTP_REQUEST`, the two fields the module reads. -/
structure HTTP_REQUEST where
  pRawUrl : Option (List Nat)
  RawUrlLength : Nat
deriving DecidableEq, Repr

/-- `IHttpRequest`: the value of `GetRawHttpRequest()` and of `GetHeader("Host", &hostLen)`
(returned pointer and the length stored into `hostLen`). -/
structure IHttpRequest where
  rawHttpRequest : Option HTTP_REQUEST
  host : Option (List Nat)
  hostLen : Nat
deriving DecidableEq, Repr

/-- `IHttpContext`: the value of `GetRequest()` and the values of `ip`, `ipLen` after
`GetServerVariable("REMOTE_ADDR", &ip, &ipLen)`. -/
structure IHttpContext where
  request : Option IHttpRequest
  ip : Option (List Nat)
  ipLen : Nat
deriving DecidableEq, Repr

/-- Arguments of one call of `LogBlockedUrl`. -/
structure LogCall where
  rawUrl : Option (List Nat)
  urlLen : Nat
  reason : Option String
  remoteIp : Option (List Nat)
  ipLen : Nat
deriving DecidableEq, Repr

/-- What `BlockRequest` sets on the response: `SetStatus(400, "Bad Request", substatus)`
and `SetHeader("Content-Length", "0", 1, TRUE)`. -/
structure Response where
  status : Nat
  reason : String
  subStatus : Nat
  contentLength : String
deriving DecidableEq, Repr

/-- Everything outside the module that the code reads or changes: whether the file at
`g_LogPath` opens, the text `strftime` produces, the bytes of the log file, the calls of
`LogBlockedUrl` made so far, and the response as set so far. -/
structure World where
  logOpens : Bool
  timebuf : List Nat
  logFile : List Nat
  logCalls : List LogCall
  response : Option Response
deriving DecidableEq, Repr

/-- `LogBlockedUrl(rawUrl, urlLen, reason, remoteIp, ipLen)`. -/
def LogBlockedUrl (w : World) (rawUrl : Option (List Nat)) (urlLen : Nat)
    (reason : Option String) (remoteIp : Option (List Nat)) (ipLen : Nat) : World :=
  let w1 := { w with logCalls := w.logCalls ++ [⟨rawUrl, urlLen, reason, remoteIp, ipLen⟩] }
  if !w1.logOpens then w1
  else
    let stamp := bytes "[" ++ w1.timebuf ++ bytes "] "
    let ipPart :=
      match remoteIp with
      | some ip => if ipLen ≠ 0 then bytes "[IP " ++ ip.take ipLen ++ bytes "] " else []
      | none => []
    let reasonPart :=
      match reason with
      | some r => bytes "[" ++ bytes r ++ bytes "] "
      | none => []
    let urlPart := (rawUrl.getD []).take urlLen
    { w1 with logFile := w1.logFile ++ (stamp ++ ipPart ++ reasonPart ++ urlPart ++ [13, 10]) }

/-- `BlockRequest(ctx, req, reason, substatus, ip, ipLen)`. -/
def BlockRequest (w : World) (req : HTTP_REQUEST) (reason : Option String) (substatus : Nat)
    (ip : Option (List Nat)) (ipLen : Nat) : REQUEST_NOTIFICATION_STATUS × World :=
  let w1 := LogBlockedUrl w req.pRawUrl req.RawUrlLength reason ip ipLen
  (.RQ_NOTIFICATION_FINISH_REQUEST,
    { w1 with response := some ⟨400, "Bad Request", substatus, "0"⟩ })

/-- `SimpleWafModule::OnBeginRequest(ctx, _)`. -/
def OnBeginRequest (w : World) (ctx : IHttpContext) :
    Except Fault (REQUEST_NOTIFICATION_STATUS × World) :=
  match ctx.request with
  | none => .ok (.RQ_NOTIFICATION_CONTINUE, w)
  | some request =>
    match request.rawHttpRequest with
    | none => .ok (.RQ_NOTIFICATION_CONTINUE, w)
    | some req =>
      match req.pRawUrl with
      | none => .ok (.RQ_NOTIFICATION_CONTINUE, w)
      | some p =>
        if req.RawUrlLength = 0 then .ok (.RQ_NOTIFICATION_CONTINUE, w)
        else
          match ValidatePath p req.RawUrlLength with
          | .error e => .error e
          | .ok r =>
            if !r.ret then
              .ok (BlockRequest w req r.reason r.substatus ctx.ip (ctx.ipLen % 65536))
            else
              match IsIpHost request.host request.hostLen with
              | .error e => .error e
              | .ok isIp =>
                if isIp then
                  .ok (BlockRequest w req (some "IP_HOST") SUBSTATUS_IP_HOST ctx.ip
                    (ctx.ipLen % 65536))
                else .ok (.RQ_NOTIFICATION_CONTINUE, w)

/-! ## Vocabulary of the properties -/

/-- The outcome of the hook as the caller sees it. -/
inductive Decision where
  | Allow
  | Block (reason : Option String) (code : Nat)
deriving DecidableEq, Repr

/-- Reading of a hook result: `RQ_NOTIFICATION_CONTINUE` is `Allow`;
`RQ_NOTIFICATION_FINISH_REQUEST` is `Block`, with the reason tag of the last
`LogBlockedUrl` call and the substatus set on the response. -/
def decisionOf (out : REQUEST_NOTIFICATION_STATUS × World) : Decision :=
  match out.1 with
  | .RQ_NOTIFICATION_CONTINUE => .Allow
  | .RQ_NOTIFICATION_FINISH_REQUEST =>
    .Block (out.2.logCalls.getLast?.bind (fun c => c.reason))
      ((out.2.response.map (fun r => r.subStatus)).getD 0)

/-- The decision of one run of the hook. -/
def requestDecision (w : World) (ctx : IHttpContext) : Except Fault Decision :=
  match OnBeginRequest w ctx with
  | .ok out => .ok (decisionOf out)
  | .error e => .error e

/-- Position `i` lies before the first `'?'` of the buffer `p`: no `'?'` stands at or
before it. -/
def BeforeQuery (p : List Nat) (i : Nat) : Prop :=
  ∀ j, j ≤ i → p.getD j 0 ≠ 63

/-- The `'%'` at position `i` starts a well-formed escape: two more bytes exist within
`len` and both are hexadecimal digits. -/
def GoodEscape (p : List Nat) (len i : Nat) : Prop :=
  i + 2 < len ∧ IsHex (p.getD (i + 1) 0) = true ∧ IsHex (p.getD (i + 2) 0) = true

/-- Position `i` holds an offending byte: a byte `≥ 0x80`, a `':'`, or a `'%'` that does
not start a well-formed escape. -/
def Offending (p : List Nat) (len i : Nat) : Prop :=
  128 ≤ p.getD i 0 ∨ p.getD i 0 = 58 ∨ (p.getD i 0 = 37 ∧ ¬ GoodEscape p len i)

instance (p : List Nat) (i : Nat) : Decidable (BeforeQuery p i) := by
  unfold BeforeQuery; infer_instance

instance (p : List Nat) (len i : Nat) : Decidable (GoodEscape p len i) := by
  unfold GoodEscape; infer_instance

instance (p : List Nat) (len i : Nat) : Decidable (Offending p len i) := by
  unfold Offending; infer_instance

/-- The result the scan reports for an offending byte `c`. -/
def verdict (c : Nat) : PathResult :=
  if c ≥ 128 then PathResult.rawUnicode
  else if c = 58 then PathResult.colonInPath
  else PathResult.badPercent

/-- The byte is a decimal digit or `'.'`. -/
def DigitOrDot (c : Nat) : Prop :=
  (48 ≤ c ∧ c ≤ 57) ∨ c = 46

instance (c : Nat) : Decidable (DigitOrDot c) := by
  unfold DigitOrDot; infer_instance

/-- The host value `(host, len)` counts as an IP literal: it is null or empty, or its
first byte is `'['`, or every byte before its first `':'` (every byte when there is no
`':'`) is a decimal digit or `'.'`. -/
def IpLiteral (host : Option (List Nat)) (len : Nat) : Prop :=
  match host with
  | none => True
  | some h =>
    len = 0 ∨ h.getD 0 0 = 91 ∨
      ∀ i, i < len → (∀ j, j ≤ i → h.getD j 0 ≠ 58) → DigitOrDot (h.getD i 0)

instance (host : Option (List Nat)) (len : Nat) : Decidable (IpLiteral host len) := by
  unfold IpLiteral; split <;> infer_instance

/-- The byte is an ASCII letter, `'A'..'Z'` or `'a'..'z'`. -/
def IsLetter (c : Nat) : Prop :=
  (65 ≤ c ∧ c ≤ 90) ∨ (97 ≤ c ∧ c ≤ 122)

instance (c : Nat) : Decidable (IsLetter c) := by
  unfold IsLetter; infer_instance

/-- The buffers of the request hold what their declared lengths announce: the raw URL
has at least `RawUrlLength` bytes, `hostLen` is a `USHORT`, and a non-null Host value has at
least `hostLen` bytes. -/
def ContextInBuffer (ctx : IHttpContext) : Prop :=
  ∀ request req p, ctx.request = some request → request.rawHttpRequest = some req →
    req.pRawUrl = some p →
      req.RawUrlLength ≤ p.length ∧ request.hostLen < 65536 ∧
        ∀ h, request.host = some h → request.hostLen ≤ h.length

/-! ## Scans with a record of their accesses -/

/-- The loop of `ValidatePath` together with a record of its accesses: the result, the
indices at which `p` is read (in order), and the values assigned to the `USHORT` index
(`i + 2` by `i += 2`, the successor by `++i`) before they are reduced to 16 bits. -/
def ValidatePath.loopTraced (p : List Nat) (len : Nat) :
    Nat → Nat → Except Fault PathResult × List Nat × List Nat
  | 0, _ => (.error .outOfFuel, [], [])
  | fuel + 1, i =>
    if i < len then
      match p[i]? with
      | none => (.error .outOfBounds, [i], [])
      | some c =>
        if c = 63 then (.ok PathResult.pass, [i], [])
        else if c ≥ 128 then (.ok PathResult.rawUnicode, [i], [])
        else if c = 58 then (.ok PathResult.colonInPath, [i], [])
        else if c = 37 then
          if i + 2 ≥ len then (.ok PathResult.badPercent, [i], [])
          else
            match p[i + 1]? with
            | none => (.error .outOfBounds, [i, i + 1], [])
            | some c1 =>
              if !IsHex c1 then (.ok PathResult.badPercent, [i, i + 1], [])
              else
                match p[i + 2]? with
                | none => (.error .outOfBounds, [i, i + 1, i + 2], [])
                | some c2 =>
                  if !IsHex c2 then (.ok PathResult.badPercent, [i, i + 1, i + 2], [])
                  else
                    let t := ValidatePath.loopTraced p len fuel (((i + 2) % 65536 + 1) % 65536)
                    (t.1, i :: (i + 1) :: (i + 2) :: t.2.1,
                      (i + 2) :: ((i + 2) % 65536 + 1) :: t.2.2)
        else
          let t := ValidatePath.loopTraced p len fuel ((i + 1) % 65536)
          (t.1, i :: t.2.1, (i + 1) :: t.2.2)
    else (.ok PathResult.pass, [], [])

/-- `ValidatePath` with the record of its accesses. -/
def ValidatePath.traced (p : List Nat) (len : Nat) :
    Except Fault PathResult × List Nat × List Nat :=
  if len > 16384 then (.ok PathResult.urlTooLong, [], [])
  else ValidatePath.loopTraced p len (len + 1) 0

/-- The loop of `IsIpHost` together with the indices at which `host` is read and the
values assigned to the `USHORT` index by `++i` before reduction to 16 bits. -/
def IsIpHost.loopTraced (host : List Nat) (len : Nat) :
    Nat → Nat → Except Fault Bool × List Nat × List Nat
  | 0, _ => (.error .outOfFuel, [], [])
  | fuel + 1, i =>
    if i < len then
      match host[i]? with
      | none => (.error .outOfBounds, [i], [])
      | some c =>
        if c = 58 then (.ok true, [i], [])
        else if (decide (c ≥ 48) && decide (c ≤ 57)) || decide (c = 46) then
          let t := IsIpHost.loopTraced host len fuel ((i + 1) % 65536)
          (t.1, i :: t.2.1, (i + 1) :: t.2.2)
        else (.ok false, [i], [])
    else (.ok true, [], [])

/-- `IsIpHost` with the record of its accesses. -/
def IsIpHost.traced (host : Option (List Nat)) (len : Nat) :
    Except Fault Bool × List Nat × List Nat :=
  match host with
  | none => (.ok true, [], [])
  | some h =>
    if len = 0 then (.ok true, [], [])
    else
      match h[0]? with
      | none => (.error .outOfBounds, [0], [])
      | some c =>
        if c = 91 then (.ok true, [0], [])
        else
          let t := IsIpHost.loopTraced h len (len + 1) 0
          (t.1, 0 :: t.2.1, t.2.2)

/-! ## Lemmas on the scan of `ValidatePath` -/

theorem IsHex_plain {c : Nat} (h : IsHex c = true) : c < 128 ∧ c ≠ 58 ∧ c ≠ 37 ∧ c ≠ 63 := by
  simp only [IsHex, Bool.or_eq_true, Bool.and_eq_true, decide_eq_true_eq] at h
  omega

theorem read_in_range {p : List Nat} {i : Nat} (h : i < p.length) :
    p[i]? = some (p.getD i 0) := by
  simp [List.getD_eq_getElem?_getD, List.getElem?_eq_getElem h]

theorem not_offending_of_hex {p : List Nat} {len k : Nat}
    (h : IsHex (p.getD k 0) = true) : ¬ Offending p len k := by
  have := IsHex_plain h
  unfold Offending
  omega

/-- From index `i` on, the loop reports the first offending byte of the path part. -/
theorem loop_first_offending (p : List Nat) (len : Nat) (hmax : len ≤ 16384)
    (hbuf : len ≤ p.length) (j : Nat) (hj : j < len) (hoff : Offending p len j) :
    ∀ fuel i, i ≤ j → len < fuel + i →
      (∀ k, i ≤ k → k ≤ j → p.getD k 0 ≠ 63) →
      (∀ k, i ≤ k → k < j → ¬ Offending p len k) →
      ValidatePath.loop p len fuel i = .ok (verdict (p.getD j 0)) := by
  intro fuel
  induction fuel with
  | zero => intro i hij hf; omega
  | succ fuel ih =>
    intro i hij hf hq hclean
    have hi : i < len := by omega
    have hread : p[i]? = some (p.getD i 0) := read_in_range (by omega)
    have hq0 : p.getD i 0 ≠ 63 := hq i (le_refl _) hij
    rcases Nat.eq_or_lt_of_le hij with heq | hlt
    · subst heq
      unfold ValidatePath.loop
      rw [if_pos hi, hread]
      simp only []
      rw [if_neg hq0]
      rcases hoff with h1 | h1 | ⟨h1, h2⟩
      · simp [-List.getD_eq_getElem?_getD, verdict, h1]
      · have h128 : ¬ 128 ≤ p.getD i 0 := by omega
        simp [-List.getD_eq_getElem?_getD, verdict, h1]
      · have hread1 : i + 2 < len → p[i + 1]? = some (p.getD (i + 1) 0) :=
          fun h => read_in_range (by omega)
        have hread2 : i + 2 < len → p[i + 2]? = some (p.getD (i + 2) 0) :=
          fun h => read_in_range (by omega)
        simp only [h1, verdict]
        by_cases hlen : i + 2 < len
        · rw [hread1 hlen, hread2 hlen]
          simp only [GoodEscape, hlen, true_and, not_and_or] at h2
          rcases h2 with h2 | h2
          · simp [-List.getD_eq_getElem?_getD, h2, Nat.not_le.mpr hlen]
          · simp [-List.getD_eq_getElem?_getD, h2, Nat.not_le.mpr hlen]
        · simp [-List.getD_eq_getElem?_getD, Nat.le_of_not_lt hlen]
    · have hno : ¬ Offending p len i := hclean i (le_refl _) hlt
      unfold Offending at hno
      simp only [not_or, not_and, not_not] at hno
      obtain ⟨h128, h58, h37⟩ := hno
      unfold ValidatePath.loop
      rw [if_pos hi, hread]
      simp only []
      rw [if_neg hq0, if_neg (by omega), if_neg h58]
      by_cases hc : p.getD i 0 = 37
      · obtain ⟨hlen, hx1, hx2⟩ := h37 hc
        have hread1 : p[i + 1]? = some (p.getD (i + 1) 0) := read_in_range (by omega)
        have hread2 : p[i + 2]? = some (p.getD (i + 2) 0) := read_in_range (by omega)
        have hj1 : j ≠ i + 1 := fun h => not_offending_of_hex hx1 (h ▸ hoff)
        have hj2 : j ≠ i + 2 := fun h => not_offending_of_hex hx2 (h ▸ hoff)
        have hstep : ((i + 2) % 65536 + 1) % 65536 = i + 3 := by omega
        rw [if_pos hc, if_neg (by omega), hread1, hread2]
        simp only [hx1, hx2, Bool.not_true, Bool.false_eq_true, if_false, hstep]
        exact ih (i + 3) (by omega) (by omega)
          (fun k hk1 hk2 => hq k (by omega) hk2)
          (fun k hk1 hk2 => hclean k (by omega) hk2)
      · have hstep : (i + 1) % 65536 = i + 1 := by omega
        rw [if_neg hc, hstep]
        exact ih (i + 1) (by omega) (by omega)
          (fun k hk1 hk2 => hq k (by omega) hk2)
          (fun k hk1 hk2 => hclean k (by omega) hk2)

/-- From index `i` on, the loop passes when the path part holds no offending byte. -/
theorem loop_pass_of_clean (p : List Nat) (len : Nat) (hmax : len ≤ 16384)
    (hbuf : len ≤ p.length) :
    ∀ fuel i, i ≤ len → len < fuel + i →
      (∀ k, i ≤ k → k < len → (∀ j, i ≤ j → j ≤ k → p.getD j 0 ≠ 63) →
        ¬ Offending p len k) →
      ValidatePath.loop p len fuel i = .ok PathResult.pass := by
  intro fuel
  induction fuel with
  | zero => intro i hi hf; omega
  | succ fuel ih =>
    intro i _ hf hclean
    unfold ValidatePath.loop
    by_cases hi : i < len
    · have hread : p[i]? = some (p.getD i 0) := read_in_range (by omega)
      rw [if_pos hi, hread]
      simp only []
      by_cases hq0 : p.getD i 0 = 63
      · rw [if_pos hq0]
      · have hno : ¬ Offending p len i :=
          hclean i (le_refl _) hi (fun j h1 h2 => by
            have : j = i := by omega
            subst this; exact hq0)
        unfold Offending at hno
        simp only [not_or, not_and, not_not] at hno
        obtain ⟨h128, h58, h37⟩ := hno
        rw [if_neg hq0, if_neg (by omega), if_neg h58]
        by_cases hc : p.getD i 0 = 37
        · obtain ⟨hlen, hx1, hx2⟩ := h37 hc
          have hread1 : p[i + 1]? = some (p.getD (i + 1) 0) := read_in_range (by omega)
          have hread2 : p[i + 2]? = some (p.getD (i + 2) 0) := read_in_range (by omega)
          have hstep : ((i + 2) % 65536 + 1) % 65536 = i + 3 := by omega
          rw [if_pos hc, if_neg (by omega), hread1, hread2]
          simp only [hx1, hx2, Bool.not_true, Bool.false_eq_true, if_false, hstep]
          refine ih (i + 3) (by omega) (by omega) (fun k hk1 hk2 hk3 => hclean k (by omega) hk2 ?_)
          intro j hj1 hj2
          by_cases h3 : i + 3 ≤ j
          · exact hk3 j h3 hj2
          · have : j = i ∨ j = i + 1 ∨ j = i + 2 := by omega
            rcases this with rfl | rfl | rfl
            · exact hq0
            · exact (IsHex_plain hx1).2.2.2
            · exact (IsHex_plain hx2).2.2.2
        · have hstep : (i + 1) % 65536 = i + 1 := by omega
          rw [if_neg hc, hstep]
          refine ih (i + 1) (by omega) (by omega) (fun k hk1 hk2 hk3 => hclean k (by omega) hk2 ?_)
          intro j hj1 hj2
          by_cases h3 : i + 1 ≤ j
          · exact hk3 j h3 hj2
          · have : j = i := by omega
            subst this; exact hq0
    · rw [if_neg hi]

/-- Every value the loop returns is one of four results. -/
theorem loop_result_cases (p : List Nat) (len : Nat) :
    ∀ fuel i r, ValidatePath.loop p len fuel i = .ok r →
      r = PathResult.pass ∨ r = PathResult.rawUnicode ∨ r = PathResult.colonInPath ∨
        r = PathResult.badPercent := by
  intro fuel
  induction fuel with
  | zero => intro i r h; simp [ValidatePath.loop] at h
  | succ fuel ih =>
    intro i r h
    unfold ValidatePath.loop at h
    repeat' split at h
    all_goals first
      | exact ih _ _ h
      | (cases h <;> simp)

theorem ValidatePath_first_offending (p : List Nat) (len : Nat) (hmax : len ≤ 16384)
    (hbuf : len ≤ p.length) (j : Nat) (hj : j < len) (hq : BeforeQuery p j)
    (hoff : Offending p len j) (hmin : ∀ k, k < j → ¬ Offending p len k) :
    ValidatePath p len = .ok (verdict (p.getD j 0)) := by
  unfold ValidatePath
  rw [if_neg (by omega)]
  exact loop_first_offending p len hmax hbuf j hj hoff (len + 1) 0 (Nat.zero_le _) (by omega)
    (fun k _ hk => hq k hk) (fun k _ hk => hmin k hk)

theorem ValidatePath_pass_of_clean (p : List Nat) (len : Nat) (hmax : len ≤ 16384)
    (hbuf : len ≤ p.length)
    (hclean : ∀ i, i < len → BeforeQuery p i → ¬ Offending p len i) :
    ValidatePath p len = .ok PathResult.pass := by
  unfold ValidatePath
  rw [if_neg (by omega)]
  exact loop_pass_of_clean p len hmax hbuf (len + 1) 0 (Nat.zero_le _) (by omega)
    (fun k _ hk hq => hclean k hk (fun j hj => hq j (Nat.zero_le _) hj))

/-- Among the offending positions before the first `'?'` there is a smallest one. -/
theorem exists_first_offending (p : List Nat) (len j : Nat) (hq : BeforeQuery p j)
    (hoff : Offending p len j) :
    ∃ j0, j0 ≤ j ∧ BeforeQuery p j0 ∧ Offending p len j0 ∧ ∀ k, k < j0 → ¬ Offending p len k := by
  classical
  have hex : ∃ n, Offending p len n := ⟨j, hoff⟩
  refine ⟨Nat.find hex, Nat.find_min' hex hoff, ?_, Nat.find_spec hex, ?_⟩
  · intro k hk
    exact hq k (le_trans hk (Nat.find_min' hex hoff))
  · intro k hk
    exact Nat.find_min hex hk

theorem verdict_ret (c : Nat) : (verdict c).ret = false := by
  unfold verdict
  split_ifs <;> rfl

theorem verdict_high {c : Nat} (h : 128 ≤ c) : verdict c = PathResult.rawUnicode := by
  simp [verdict, h]

theorem verdict_colon : verdict 58 = PathResult.colonInPath := by
  simp [verdict]

theorem verdict_percent : verdict 37 = PathResult.badPercent := by
  simp [verdict]

theorem verdict_eq_badPercent {c : Nat} (h : verdict c = PathResult.badPercent) :
    c < 128 ∧ c ≠ 58 := by
  unfold verdict at h
  split_ifs at h with h1 h2
  · exact absurd (congrArg PathResult.substatus h) (by decide)
  · exact absurd (congrArg PathResult.substatus h) (by decide)
  · exact ⟨by omega, h2⟩

/-- Either the path part is clean, or it has a first offending position. -/
theorem clean_or_first_offending (p : List Nat) (len : Nat) :
    (∀ i, i < len → BeforeQuery p i → ¬ Offending p len i) ∨
      ∃ j, j < len ∧ BeforeQuery p j ∧ Offending p len j ∧ ∀ k, k < j → ¬ Offending p len k := by
  by_cases h : ∀ i, i < len → BeforeQuery p i → ¬ Offending p len i
  · exact Or.inl h
  · right
    push_neg at h
    obtain ⟨i, hi, hq, hoff⟩ := h
    obtain ⟨j0, hj0, hq0, hoff0, hmin⟩ := exists_first_offending p len i hq hoff
    exact ⟨j0, by omega, hq0, hoff0, hmin⟩

theorem getD_take_of_lt (a : List Nat) {n j : Nat} (h : j < n) :
    (a.take n).getD j 0 = a.getD j 0 := by
  simp [List.getElem?_take_of_lt h]

theorem getD_take_self (a : List Nat) (n : Nat) : (a.take n).getD n 0 = 0 := by
  simp [List.getElem?_take_eq_none (le_refl n)]

/-- Whether a position before `q` offends depends only on the bytes before `q`, provided
`q` is within both declared lengths and the byte at `q` is not a hexadecimal digit. -/
theorem offending_congr (a b : List Nat) (la lb q : Nat) (hqa : q ≤ la) (hqb : q ≤ lb)
    (heq : ∀ j, j < q → a.getD j 0 = b.getD j 0)
    (hxa : IsHex (a.getD q 0) = false) (hxb : IsHex (b.getD q 0) = false)
    (k : Nat) (hk : k < q) : Offending a la k ↔ Offending b lb k := by
  have hg : GoodEscape a la k ↔ GoodEscape b lb k := by
    unfold GoodEscape
    by_cases h2 : k + 2 < q
    · rw [heq (k + 1) (by omega), heq (k + 2) (by omega)]
      constructor <;> rintro ⟨_, h⟩ <;> exact ⟨by omega, h⟩
    · by_cases h1 : k + 2 = q
      · rw [h1, hxa, hxb]
        simp
      · have h0 : k + 1 = q := by omega
        rw [h0, hxa, hxb]
        simp
  unfold Offending
  rw [heq k hk, hg]

theorem ValidatePath_pass_of_prefix_clean (a : List Nat) (la q : Nat) (hmax : la ≤ 16384)
    (hbuf : la ≤ a.length) (hend : q < la → a.getD q 0 = 63)
    (hclean : ∀ k, k < q → ¬ Offending a la k) :
    ValidatePath a la = .ok PathResult.pass := by
  refine ValidatePath_pass_of_clean a la hmax hbuf (fun i hi hbq => ?_)
  by_cases hiq : i < q
  · exact hclean i hiq
  · exact absurd (hend (by omega)) (hbq q (by omega))

/-! ## Lemmas on the scan of `IsIpHost` -/

/-- From index `i` on, the loop answers `true` when every byte before the first `':'` is
a digit or a dot. -/
theorem host_loop_true (h : List Nat) (len : Nat) (hmax : len < 65536)
    (hbuf : len ≤ h.length) :
    ∀ fuel i, i ≤ len → len < fuel + i →
      (∀ k, i ≤ k → k < len → (∀ j, i ≤ j → j ≤ k → h.getD j 0 ≠ 58) →
        DigitOrDot (h.getD k 0)) →
      IsIpHost.loop h len fuel i = .ok true := by
  intro fuel
  induction fuel with
  | zero => intro i hi hf; omega
  | succ fuel ih =>
    intro i _ hf hall
    unfold IsIpHost.loop
    by_cases hi : i < len
    · have hread : h[i]? = some (h.getD i 0) := read_in_range (by omega)
      rw [if_pos hi, hread]
      simp only []
      by_cases hc : h.getD i 0 = 58
      · rw [if_pos hc]
      · have hd : DigitOrDot (h.getD i 0) :=
          hall i (le_refl _) hi (fun j h1 h2 => by
            have : j = i := by omega
            subst this; exact hc)
        have hcond : ((decide (h.getD i 0 ≥ 48) && decide (h.getD i 0 ≤ 57)) ||
            decide (h.getD i 0 = 46)) = true := by
          unfold DigitOrDot at hd
          simp only [Bool.or_eq_true, Bool.and_eq_true, decide_eq_true_eq]
          exact hd
        have hstep : (i + 1) % 65536 = i + 1 := by omega
        rw [if_neg hc, if_pos hcond, hstep]
        refine ih (i + 1) (by omega) (by omega) (fun k hk1 hk2 hk3 => hall k (by omega) hk2 ?_)
        intro j hj1 hj2
        by_cases h3 : i + 1 ≤ j
        · exact hk3 j h3 hj2
        · have : j = i := by omega
          subst this; exact hc
    · rw [if_neg hi]

/-- From index `i` on, the loop answers `false` at the first byte before any `':'` that
is neither a digit nor a dot. -/
theorem host_loop_false (h : List Nat) (len : Nat) (hmax : len < 65536)
    (hbuf : len ≤ h.length) (j : Nat) (hj : j < len) (hbad : ¬ DigitOrDot (h.getD j 0)) :
    ∀ fuel i, i ≤ j → len < fuel + i →
      (∀ k, i ≤ k → k ≤ j → h.getD k 0 ≠ 58) →
      (∀ k, i ≤ k → k < j → DigitOrDot (h.getD k 0)) →
      IsIpHost.loop h len fuel i = .ok false := by
  intro fuel
  induction fuel with
  | zero => intro i hij hf; omega
  | succ fuel ih =>
    intro i hij hf hcolon hall
    have hi : i < len := by omega
    have hread : h[i]? = some (h.getD i 0) := read_in_range (by omega)
    have hc : h.getD i 0 ≠ 58 := hcolon i (le_refl _) hij
    unfold IsIpHost.loop
    rw [if_pos hi, hread]
    simp only []
    rw [if_neg hc]
    rcases Nat.eq_or_lt_of_le hij with heq | hlt
    · subst heq
      have hcond : ¬ ((decide (h.getD i 0 ≥ 48) && decide (h.getD i 0 ≤ 57)) ||
          decide (h.getD i 0 = 46)) = true := by
        unfold DigitOrDot at hbad
        simp only [Bool.or_eq_true, Bool.and_eq_true, decide_eq_true_eq]
        exact hbad
      rw [if_neg hcond]
    · have hd : DigitOrDot (h.getD i 0) := hall i (le_refl _) hlt
      have hcond : ((decide (h.getD i 0 ≥ 48) && decide (h.getD i 0 ≤ 57)) ||
          decide (h.getD i 0 = 46)) = true := by
        unfold DigitOrDot at hd
        simp only [Bool.or_eq_true, Bool.and_eq_true, decide_eq_true_eq]
        exact hd
      have hstep : (i + 1) % 65536 = i + 1 := by omega
      rw [if_pos hcond, hstep]
      exact ih (i + 1) (by omega) (by omega)
        (fun k hk1 hk2 => hcolon k (by omega) hk2)
        (fun k hk1 hk2 => hall k (by omega) hk2)

/-- On a well-formed host value `IsIpHost` returns, and it returns `true` exactly on the
IP literals. -/
theorem IsIpHost_spec (host : Option (List Nat)) (len : Nat) (hmax : len < 65536)
    (hbuf : ∀ h, host = some h → len ≤ h.length) :
    ∃ b, IsIpHost host len = .ok b ∧ (b = true ↔ IpLiteral host len) := by
  cases host with
  | none => exact ⟨true, rfl, by simp [IpLiteral]⟩
  | some h =>
    have hb : len ≤ h.length := hbuf h rfl
    unfold IsIpHost IpLiteral
    simp only []
    by_cases h0 : len = 0
    · exact ⟨true, by rw [if_pos h0], by simp [h0]⟩
    · have hread : h[0]? = some (h.getD 0 0) := read_in_range (by omega)
      rw [if_neg h0, hread]
      simp only []
      by_cases h91 : h.getD 0 0 = 91
      · exact ⟨true, by rw [if_pos h91], by simp [-List.getD_eq_getElem?_getD, h91]⟩
      · rw [if_neg h91]
        by_cases hall : ∀ i, i < len → (∀ j, j ≤ i → h.getD j 0 ≠ 58) →
            DigitOrDot (h.getD i 0)
        · refine ⟨true, ?_, by simp only [true_iff]; exact Or.inr (Or.inr hall)⟩
          exact host_loop_true h len hmax hb (len + 1) 0 (Nat.zero_le _) (by omega)
            (fun k _ hk hc => hall k hk (fun j hj => hc j (Nat.zero_le _) hj))
        · refine ⟨false, ?_, ?_⟩
          · classical
            have hex : ∃ i, i < len ∧ (∀ j, j ≤ i → h.getD j 0 ≠ 58) ∧
                ¬ DigitOrDot (h.getD i 0) := by
              push_neg at hall
              exact hall
            obtain ⟨hlt, hcol, hbad⟩ := Nat.find_spec hex
            refine host_loop_false h len hmax hb (Nat.find hex) hlt hbad (len + 1) 0
              (Nat.zero_le _) (by omega) (fun k _ hk => hcol k hk) (fun k _ hk => ?_)
            by_contra hk2
            exact Nat.find_min hex hk ⟨by omega, fun j hj => hcol j (by omega), hk2⟩
          · constructor
            · intro hf; exact absurd hf (by decide)
            · rintro (h1 | h1 | h1)
              · exact absurd h1 h0
              · exact absurd h1 h91
              · exact absurd h1 hall

/-! ## Lemmas on the hook -/

theorem ValidatePath_total (p : List Nat) (len : Nat) (hbuf : len ≤ p.length) :
    ∃ r, ValidatePath p len = .ok r := by
  by_cases hmax : len ≤ 16384
  · rcases clean_or_first_offending p len with hclean | ⟨j, hj, hq, hoff, hmin⟩
    · exact ⟨_, ValidatePath_pass_of_clean p len hmax hbuf hclean⟩
    · exact ⟨_, ValidatePath_first_offending p len hmax hbuf j hj hq hoff hmin⟩
  · refine ⟨PathResult.urlTooLong, ?_⟩
    unfold ValidatePath
    rw [if_pos (by omega)]

theorem ValidatePath_result_cases (p : List Nat) (len : Nat) (r : PathResult)
    (h : ValidatePath p len = .ok r) :
    r = PathResult.pass ∨ r = PathResult.urlTooLong ∨ r = PathResult.rawUnicode ∨
      r = PathResult.colonInPath ∨ r = PathResult.badPercent := by
  unfold ValidatePath at h
  split_ifs at h
  · cases h; simp
  · rcases loop_result_cases p len _ _ r h with h1 | h1 | h1 | h1 <;> simp [h1]

theorem ValidatePath_zero (p : List Nat) : ValidatePath p 0 = .ok PathResult.pass := by
  simp [ValidatePath, ValidatePath.loop]

theorem decisionOf_BlockRequest (w : World) (req : HTTP_REQUEST) (reason : Option String)
    (substatus : Nat) (ip : Option (List Nat)) (ipLen : Nat) :
    decisionOf (BlockRequest w req reason substatus ip ipLen) = .Block reason substatus := by
  unfold decisionOf BlockRequest LogBlockedUrl
  by_cases ho : w.logOpens = true <;> simp [ho, List.getLast?_concat]

/-- The hook on a request that carries a raw URL, in terms of the two checks. -/
theorem requestDecision_eq (w : World) (ctx : IHttpContext) (request : IHttpRequest)
    (req : HTTP_REQUEST) (p : List Nat) (hreq : ctx.request = some request)
    (hraw : request.rawHttpRequest = some req) (hurl : req.pRawUrl = some p)
    (r : PathResult) (hv : ValidatePath p req.RawUrlLength = .ok r)
    (isIp : Bool) (hh : IsIpHost request.host request.hostLen = .ok isIp) :
    requestDecision w ctx = .ok
      (if req.RawUrlLength = 0 then Decision.Allow
       else if r.ret = false then Decision.Block r.reason r.substatus
       else if isIp = true then Decision.Block (some "IP_HOST") 1005
       else Decision.Allow) := by
  unfold requestDecision OnBeginRequest
  rw [hreq]
  simp only []
  rw [hraw]
  simp only []
  rw [hurl]
  simp only []
  by_cases h0 : req.RawUrlLength = 0
  · simp [h0, decisionOf]
  · rw [if_neg h0, if_neg h0, hv]
    simp only []
    cases hret : r.ret
    · simp [decisionOf_BlockRequest]
    · rw [hh]
      cases isIp
      · simp [decisionOf]
      · simp [decisionOf_BlockRequest, SUBSTATUS_IP_HOST]

theorem decisionOf_continue (w : World) :
    decisionOf (REQUEST_NOTIFICATION_STATUS.RQ_NOTIFICATION_CONTINUE, w) = Decision.Allow := rfl

/-- Each run of the hook either continues with the world untouched or ends in one
`BlockRequest`, called with a result of `ValidatePath` or with `"IP_HOST"`. -/
theorem OnBeginRequest_cases (w : World) (ctx : IHttpContext)
    (out : REQUEST_NOTIFICATION_STATUS × World) (h : OnBeginRequest w ctx = .ok out) :
    out = (.RQ_NOTIFICATION_CONTINUE, w) ∨
      ∃ request req p, ctx.request = some request ∧ request.rawHttpRequest = some req ∧
        req.pRawUrl = some p ∧ req.RawUrlLength ≠ 0 ∧
        ((∃ r, ValidatePath p req.RawUrlLength = .ok r ∧ r.ret = false ∧
            out = BlockRequest w req r.reason r.substatus ctx.ip (ctx.ipLen % 65536)) ∨
          (ValidatePath p req.RawUrlLength = .ok PathResult.pass ∧
            IsIpHost request.host request.hostLen = .ok true ∧
            out = BlockRequest w req (some "IP_HOST") SUBSTATUS_IP_HOST ctx.ip
              (ctx.ipLen % 65536))) := by
  unfold OnBeginRequest at h
  cases hreq : ctx.request with
  | none => rw [hreq] at h; cases h; exact Or.inl rfl
  | some request =>
    rw [hreq] at h
    simp only [] at h
    cases hraw : request.rawHttpRequest with
    | none => rw [hraw] at h; cases h; exact Or.inl rfl
    | some req =>
      rw [hraw] at h
      simp only [] at h
      cases hurl : req.pRawUrl with
      | none => rw [hurl] at h; cases h; exact Or.inl rfl
      | some p =>
        rw [hurl] at h
        simp only [] at h
        by_cases h0 : req.RawUrlLength = 0
        · rw [if_pos h0] at h; cases h; exact Or.inl rfl
        · rw [if_neg h0] at h
          cases hv : ValidatePath p req.RawUrlLength with
          | error e => rw [hv] at h; cases h
          | ok r =>
            rw [hv] at h
            simp only [] at h
            cases hret : r.ret with
            | false =>
              rw [hret] at h
              simp only [Bool.not_false, if_true] at h
              cases h
              exact Or.inr ⟨request, req, p, rfl, hraw, hurl, h0, Or.inl ⟨r, hv, hret, rfl⟩⟩
            | true =>
              rw [hret] at h
              simp only [Bool.not_true, Bool.false_eq_true, if_false] at h
              have hpass : r = PathResult.pass := by
                rcases ValidatePath_result_cases p req.RawUrlLength r hv with
                  h1 | h1 | h1 | h1 | h1
                · exact h1
                all_goals (rw [h1] at hret; exact Bool.noConfusion hret)
              cases hh : IsIpHost request.host request.hostLen with
              | error e => rw [hh] at h; cases h
              | ok isIp =>
                rw [hh] at h
                simp only [] at h
                cases isIp with
                | false =>
                  simp only [Bool.false_eq_true, if_false] at h
                  cases h; exact Or.inl rfl
                | true =>
                  simp only [if_true] at h
                  cases h
                  exact Or.inr ⟨request, req, p, rfl, hraw, hurl, h0,
                    Or.inr ⟨hpass ▸ hv, hh, rfl⟩⟩

theorem block_pair_cases (w : World) (ctx : IHttpContext) (reason : Option String)
    (code : Nat) (h : requestDecision w ctx = .ok (Decision.Block reason code)) :
    (reason = some "URL_TOO_LONG" ∧ code = 1001) ∨
      (reason = some "RAW_UNICODE" ∧ code = 1002) ∨
      (reason = some "COLON_IN_PATH" ∧ code = 1003) ∨
      (reason = some "BAD_PERCENT_ENCODING" ∧ code = 1004) ∨
      (reason = some "IP_HOST" ∧ code = 1005) := by
  unfold requestDecision at h
  cases hout : OnBeginRequest w ctx with
  | error e => rw [hout] at h; cases h
  | ok out =>
    rw [hout] at h
    simp only [] at h
    injection h with h
    rcases OnBeginRequest_cases w ctx out hout with h1 | ⟨request, req, p, _, _, _, _, h1⟩
    · rw [h1, decisionOf_continue] at h
      cases h
    · rcases h1 with ⟨r, hv, hret, h1⟩ | ⟨_, _, h1⟩
      · rw [h1, decisionOf_BlockRequest] at h
        injection h with hr hc
        subst hr hc
        rcases ValidatePath_result_cases p req.RawUrlLength r hv with h2 | h2 | h2 | h2 | h2
        · rw [h2] at hret; exact Bool.noConfusion hret
        · rw [h2]; exact Or.inl ⟨rfl, rfl⟩
        · rw [h2]; exact Or.inr (Or.inl ⟨rfl, rfl⟩)
        · rw [h2]; exact Or.inr (Or.inr (Or.inl ⟨rfl, rfl⟩))
        · rw [h2]; exact Or.inr (Or.inr (Or.inr (Or.inl ⟨rfl, rfl⟩)))
      · rw [h1, decisionOf_BlockRequest] at h
        injection h with hr hc
        subst hr hc
        exact Or.inr (Or.inr (Or.inr (Or.inr ⟨rfl, rfl⟩)))

theorem BlockRequest_logCalls (w : World) (req : HTTP_REQUEST) (reason : Option String)
    (substatus : Nat) (ip : Option (List Nat)) (ipLen : Nat) :
    (BlockRequest w req reason substatus ip ipLen).2.logCalls =
      w.logCalls ++ [⟨req.pRawUrl, req.RawUrlLength, reason, ip, ipLen⟩] := by
  unfold BlockRequest LogBlockedUrl
  by_cases ho : w.logOpens = true <;> simp [ho]

theorem LogBlockedUrl_closed (w : World) (rawUrl : Option (List Nat)) (urlLen : Nat)
    (reason : Option String) (remoteIp : Option (List Nat)) (ipLen : Nat)
    (hclosed : w.logOpens = false) :
    (LogBlockedUrl w rawUrl urlLen reason remoteIp ipLen).logFile = w.logFile := by
  unfold LogBlockedUrl
  simp [hclosed]

theorem OnBeginRequest_total (w : World) (ctx : IHttpContext) (hwf : ContextInBuffer ctx) :
    ∃ out, OnBeginRequest w ctx = .ok out := by
  unfold OnBeginRequest
  cases hreq : ctx.request with
  | none => exact ⟨_, rfl⟩
  | some request =>
    simp only []
    cases hraw : request.rawHttpRequest with
    | none => exact ⟨_, rfl⟩
    | some req =>
      simp only []
      cases hurl : req.pRawUrl with
      | none => exact ⟨_, rfl⟩
      | some p =>
        simp only []
        obtain ⟨hbuf, hmax, hhost⟩ := hwf request req p hreq hraw hurl
        by_cases h0 : req.RawUrlLength = 0
        · rw [if_pos h0]; exact ⟨_, rfl⟩
        · rw [if_neg h0]
          obtain ⟨r, hr⟩ := ValidatePath_total p req.RawUrlLength hbuf
          obtain ⟨b, hb, _⟩ := IsIpHost_spec request.host request.hostLen hmax hhost
          rw [hr]
          simp only []
          cases r.ret
          · exact ⟨_, rfl⟩
          · rw [hb]
            cases b
            · exact ⟨_, rfl⟩
            · exact ⟨_, rfl⟩

/-- The decision does not depend on the world or on the remote address. -/
theorem requestDecision_congr (w1 w2 : World) (ctx1 ctx2 : IHttpContext)
    (hsame : ctx1.request = ctx2.request) :
    requestDecision w1 ctx1 = requestDecision w2 ctx2 := by
  unfold requestDecision OnBeginRequest
  rw [hsame]
  cases ctx2.request with
  | none => rfl
  | some request =>
    simp only []
    cases request.rawHttpRequest with
    | none => rfl
    | some req =>
      simp only []
      cases req.pRawUrl with
      | none => rfl
      | some p =>
        simp only []
        by_cases h0 : req.RawUrlLength = 0
        · simp only [h0, if_true]
          rfl
        · simp only [h0, if_false]
          cases ValidatePath p req.RawUrlLength with
          | error e => rfl
          | ok r =>
            simp only []
            cases r.ret
            · simp [decisionOf_BlockRequest]
            · simp only [Bool.not_true, Bool.false_eq_true, if_false]
              cases IsIpHost request.host request.hostLen with
              | error e => rfl
              | ok b =>
                cases b
                · simp [decisionOf]
                · simp [decisionOf_BlockRequest]

/-! ## Lemmas on the recorded accesses -/

/-- The traced loop of `ValidatePath` computes the result of the loop, reads only below
`len`, and assigns to the index only values that fit in 16 bits. -/
theorem ValidatePath_loopTraced_spec (p : List Nat) (len : Nat) (hmax : len < 65536) :
    ∀ fuel i, (ValidatePath.loopTraced p len fuel i).1 = ValidatePath.loop p len fuel i ∧
      (∀ k, k ∈ (ValidatePath.loopTraced p len fuel i).2.1 → k < len) ∧
      (∀ v, v ∈ (ValidatePath.loopTraced p len fuel i).2.2 → v < 65536) := by
  intro fuel
  induction fuel with
  | zero =>
    intro i
    refine ⟨rfl, ?_, ?_⟩ <;> intro k hk <;> simp [ValidatePath.loopTraced] at hk
  | succ fuel ih =>
    intro i
    unfold ValidatePath.loopTraced ValidatePath.loop
    by_cases hi : i < len
    · simp only [if_pos hi]
      cases p[i]? with
      | none => refine ⟨?_, ?_, ?_⟩ <;> first | rfl | trivial | (intro k hk; simp at hk; try omega)
      | some c =>
        simp only []
        by_cases h1 : c = 63
        · simp only [if_pos h1]
          refine ⟨?_, ?_, ?_⟩ <;> first | rfl | trivial | (intro k hk; simp at hk; try omega)
        simp only [if_neg h1]
        by_cases h2 : c ≥ 128
        · simp only [if_pos h2]
          refine ⟨?_, ?_, ?_⟩ <;> first | rfl | trivial | (intro k hk; simp at hk; try omega)
        simp only [if_neg h2]
        by_cases h3 : c = 58
        · simp only [if_pos h3]
          refine ⟨?_, ?_, ?_⟩ <;> first | rfl | trivial | (intro k hk; simp at hk; try omega)
        simp only [if_neg h3]
        by_cases h4 : c = 37
        · simp only [if_pos h4]
          by_cases h5 : i + 2 ≥ len
          · simp only [if_pos h5]
            refine ⟨?_, ?_, ?_⟩ <;> first | rfl | trivial | (intro k hk; simp at hk; try omega)
          simp only [if_neg h5]
          cases p[i + 1]? with
          | none => refine ⟨?_, ?_, ?_⟩ <;> first | rfl | trivial | (intro k hk; simp at hk; try omega)
          | some c1 =>
            simp only []
            by_cases h6 : (!IsHex c1) = true
            · simp only [if_pos h6]
              refine ⟨?_, ?_, ?_⟩ <;> first | rfl | trivial | (intro k hk; simp at hk; try omega)
            simp only [if_neg h6]
            cases p[i + 2]? with
            | none => refine ⟨?_, ?_, ?_⟩ <;> first | rfl | trivial | (intro k hk; simp at hk; try omega)
            | some c2 =>
              simp only []
              by_cases h7 : (!IsHex c2) = true
              · simp only [if_pos h7]
                refine ⟨?_, ?_, ?_⟩ <;> first | rfl | trivial | (intro k hk; simp at hk; try omega)
              simp only [if_neg h7]
              obtain ⟨e1, e2, e3⟩ := ih (((i + 2) % 65536 + 1) % 65536)
              refine ⟨e1, ?_, ?_⟩
              · intro k hk
                simp only [List.mem_cons] at hk
                rcases hk with hk | hk | hk | hk
                · omega
                · omega
                · omega
                · exact e2 k hk
              · intro v hv
                simp only [List.mem_cons] at hv
                rcases hv with hv | hv | hv
                · omega
                · omega
                · exact e3 v hv
        · simp only [if_neg h4]
          obtain ⟨e1, e2, e3⟩ := ih ((i + 1) % 65536)
          refine ⟨e1, ?_, ?_⟩
          · intro k hk
            simp only [List.mem_cons] at hk
            rcases hk with hk | hk
            · omega
            · exact e2 k hk
          · intro v hv
            simp only [List.mem_cons] at hv
            rcases hv with hv | hv
            · omega
            · exact e3 v hv
    · simp only [if_neg hi]
      refine ⟨?_, ?_, ?_⟩ <;> first | rfl | trivial | (intro k hk; simp at hk; try omega)

theorem ValidatePath_traced_spec (p : List Nat) (len : Nat) :
    (ValidatePath.traced p len).1 = ValidatePath p len ∧
      (∀ k, k ∈ (ValidatePath.traced p len).2.1 → k < len) ∧
      (∀ v, v ∈ (ValidatePath.traced p len).2.2 → v < 65536) := by
  unfold ValidatePath.traced ValidatePath
  by_cases h : len > 16384
  · simp only [if_pos h]
    refine ⟨?_, ?_, ?_⟩ <;> first | rfl | trivial | (intro k hk; simp at hk; try omega)
  · simp only [if_neg h]
    exact ValidatePath_loopTraced_spec p len (by omega) (len + 1) 0

/-- The traced loop of `IsIpHost` computes the result of the loop, reads only below `len`,
and assigns to the index only values that fit in 16 bits. -/
theorem IsIpHost_loopTraced_spec (host : List Nat) (len : Nat) (hmax : len < 65536) :
    ∀ fuel i, (IsIpHost.loopTraced host len fuel i).1 = IsIpHost.loop host len fuel i ∧
      (∀ k, k ∈ (IsIpHost.loopTraced host len fuel i).2.1 → k < len) ∧
      (∀ v, v ∈ (IsIpHost.loopTraced host len fuel i).2.2 → v < 65536) := by
  intro fuel
  induction fuel with
  | zero =>
    intro i
    refine ⟨rfl, ?_, ?_⟩ <;> intro k hk <;> simp [IsIpHost.loopTraced] at hk
  | succ fuel ih =>
    intro i
    unfold IsIpHost.loopTraced IsIpHost.loop
    by_cases hi : i < len
    · simp only [if_pos hi]
      cases host[i]? with
      | none => refine ⟨?_, ?_, ?_⟩ <;> first | rfl | trivial | (intro k hk; simp at hk; try omega)
      | some c =>
        simp only []
        by_cases h1 : c = 58
        · simp only [if_pos h1]
          refine ⟨?_, ?_, ?_⟩ <;> first | rfl | trivial | (intro k hk; simp at hk; try omega)
        simp only [if_neg h1]
        by_cases h2 : ((decide (c ≥ 48) && decide (c ≤ 57)) || decide (c = 46)) = true
        · simp only [if_pos h2]
          obtain ⟨e1, e2, e3⟩ := ih ((i + 1) % 65536)
          refine ⟨e1, ?_, ?_⟩
          · intro k hk
            simp only [List.mem_cons] at hk
            rcases hk with hk | hk
            · omega
            · exact e2 k hk
          · intro v hv
            simp only [List.mem_cons] at hv
            rcases hv with hv | hv
            · omega
            · exact e3 v hv
        · simp only [if_neg h2]
          refine ⟨?_, ?_, ?_⟩ <;> first | rfl | trivial | (intro k hk; simp at hk; try omega)
    · simp only [if_neg hi]
      refine ⟨?_, ?_, ?_⟩ <;> first | rfl | trivial | (intro k hk; simp at hk; try omega)

theorem IsIpHost_traced_spec (host : Option (List Nat)) (len : Nat) (hmax : len < 65536) :
    (IsIpHost.traced host len).1 = IsIpHost host len ∧
      (∀ k, k ∈ (IsIpHost.traced host len).2.1 → k < len) ∧
      (∀ v, v ∈ (IsIpHost.traced host len).2.2 → v < 65536) := by
  unfold IsIpHost.traced IsIpHost
  cases host with
  | none => refine ⟨?_, ?_, ?_⟩ <;> first | rfl | trivial | (intro k hk; simp at hk; try omega)
  | some h =>
    simp only []
    by_cases h0 : len = 0
    · simp only [if_pos h0]
      refine ⟨?_, ?_, ?_⟩ <;> first | rfl | trivial | (intro k hk; simp at hk; try omega)
    · simp only [if_neg h0]
      cases h[0]? with
      | none => refine ⟨?_, ?_, ?_⟩ <;> first | rfl | trivial | (intro k hk; simp at hk; try omega)
      | some c =>
        simp only []
        by_cases h1 : c = 91
        · simp only [if_pos h1]
          refine ⟨?_, ?_, ?_⟩ <;> first | rfl | trivial | (intro k hk; simp at hk; try omega)
        · simp only [if_neg h1]
          obtain ⟨e1, e2, e3⟩ := IsIpHost_loopTraced_spec h len hmax (len + 1) 0
          refine ⟨e1, ?_, e3⟩
          intro k hk
          simp only [List.mem_cons] at hk
          rcases hk with hk | hk
          · omega
          · exact e2 k hk

/-- The record of `ValidatePath` on `/a%41`: five reads, and the index values 1, 2, then 4
and 5 for the escape. -/
theorem ValidatePath_traced_example :
    ValidatePath.traced (bytes "/a%41") 5 =
      (.ok PathResult.pass, [0, 1, 2, 3, 4], [1, 2, 4, 5]) := by
  decide

/-! ## The path validator -/

/-- C1: soundness of the path validator.  When `ValidatePath` returns `true` on a URL
held in a buffer of at least `len` bytes, then `len ≤ 16384` and every position before the
first `'?'` holds a byte below `0x80` that is not `':'`, and where it holds `'%'` two more
bytes exist within `len` and both are hexadecimal digits. -/
theorem ValidatePath_sound (p : List Nat) (len : Nat) (hbuf : len ≤ p.length)
    (r : PathResult) (h : ValidatePath p len = .ok r) (hr : r.ret = true) :
    len ≤ 16384 ∧
      ∀ i, i < len → BeforeQuery p i →
        p.getD i 0 < 128 ∧ p.getD i 0 ≠ 58 ∧ (p.getD i 0 = 37 → GoodEscape p len i) := by
  have hmax : len ≤ 16384 := by
    by_contra hgt
    unfold ValidatePath at h
    rw [if_pos (by omega)] at h
    cases h
    simp [PathResult.urlTooLong] at hr
  refine ⟨hmax, fun i hi hq => ?_⟩
  have hno : ¬ Offending p len i := by
    intro hoff
    obtain ⟨j0, hj0, hq0, hoff0, hmin⟩ := exists_first_offending p len i hq hoff
    have hv := ValidatePath_first_offending p len hmax hbuf j0 (by omega) hq0 hoff0 hmin
    rw [h] at hv
    cases hv
    rw [verdict_ret] at hr
    exact Bool.noConfusion hr
  unfold Offending at hno
  simp only [not_or, not_and, not_not] at hno
  exact ⟨by omega, hno.2.1, hno.2.2⟩

/-- Witness of C1 on the URL `/a%41?x:y`, which the validator passes. -/
theorem ValidatePath_sound_witness :
    9 ≤ 16384 ∧
      ∀ i, i < 9 → BeforeQuery (bytes "/a%41?x:y") i →
        (bytes "/a%41?x:y").getD i 0 < 128 ∧ (bytes "/a%41?x:y").getD i 0 ≠ 58 ∧
          ((bytes "/a%41?x:y").getD i 0 = 37 → GoodEscape (bytes "/a%41?x:y") 9 i) :=
  ValidatePath_sound (bytes "/a%41?x:y") 9 (by decide) PathResult.pass (by decide) rfl

/-- C2: completeness of the path validator.  On a URL of length at most 16384 whose part
before the first `'?'` holds no byte `≥ 0x80`, no `':'` and only well-formed `'%'` escapes,
`ValidatePath` returns `true` with `reason = nullptr` and `substatus = 0`. -/
theorem ValidatePath_complete (p : List Nat) (len : Nat) (hbuf : len ≤ p.length)
    (hmax : len ≤ 16384)
    (hclean : ∀ i, i < len → BeforeQuery p i →
      p.getD i 0 < 128 ∧ p.getD i 0 ≠ 58 ∧ (p.getD i 0 = 37 → GoodEscape p len i)) :
    ValidatePath p len = .ok { ret := true, reason := none, substatus := 0 } := by
  refine ValidatePath_pass_of_clean p len hmax hbuf (fun i hi hq hoff => ?_)
  obtain ⟨h1, h2, h3⟩ := hclean i hi hq
  rcases hoff with h | h | ⟨h, h4⟩
  · omega
  · exact h2 h
  · exact h4 (h3 h)

/-- Witness of C2 on the URL `/a%41?x:y`. -/
theorem ValidatePath_complete_witness :
    ValidatePath (bytes "/a%41?x:y") 9 = .ok { ret := true, reason := none, substatus := 0 } :=
  ValidatePath_complete (bytes "/a%41?x:y") 9 (by decide) (by decide) (by decide)

/-- C5: a URL whose declared length exceeds 16384 is rejected with `"URL_TOO_LONG"` and
substatus 1001, whatever the buffer holds. -/
theorem ValidatePath_too_long (p : List Nat) (len : Nat) (hlen : 16384 < len) :
    ValidatePath p len =
      .ok { ret := false, reason := some "URL_TOO_LONG", substatus := 1001 } := by
  unfold ValidatePath
  rw [if_pos hlen]
  rfl

/-- Witness of C5 on 20000 bytes that start with `':'`, `0x80` and `'?'`. -/
theorem ValidatePath_too_long_witness :
    ValidatePath (58 :: 128 :: 63 :: List.replicate 19997 97) 20000 =
      .ok { ret := false, reason := some "URL_TOO_LONG", substatus := 1001 } :=
  ValidatePath_too_long (58 :: 128 :: 63 :: List.replicate 19997 97) 20000 (by decide)

/-- Counterexample to C6 as stated: in `/a:b` followed by the bytes `0xC3 0xA9` the byte
`0xC3` stands before any `'?'`, yet the colon is met first and the result is
`"COLON_IN_PATH"`, 1003. -/
theorem ValidatePath_raw_unicode_counterexample :
    6 ≤ [47, 97, 58, 98, 195, 169].length ∧ 6 ≤ 16384 ∧
      (4 < 6 ∧ BeforeQuery [47, 97, 58, 98, 195, 169] 4 ∧
        128 ≤ [47, 97, 58, 98, 195, 169].getD 4 0) ∧
      ValidatePath [47, 97, 58, 98, 195, 169] 6 =
        .ok { ret := false, reason := some "COLON_IN_PATH", substatus := 1003 } ∧
      ValidatePath [47, 97, 58, 98, 195, 169] 6 ≠
        .ok { ret := false, reason := some "RAW_UNICODE", substatus := 1002 } := by
  decide

/-- C6, amended: on a URL of length at most 16384 in which a byte `≥ 0x80` stands before
the first `'?'` with no `':'` and no malformed `'%'` escape before it, `ValidatePath`
returns `false` with `"RAW_UNICODE"` and substatus 1002. -/
theorem ValidatePath_raw_unicode (p : List Nat) (len : Nat) (hbuf : len ≤ p.length)
    (hmax : len ≤ 16384) (j : Nat) (hj : j < len) (hq : BeforeQuery p j)
    (hb : 128 ≤ p.getD j 0)
    (hfirst : ∀ k, k < j → p.getD k 0 ≠ 58 ∧ (p.getD k 0 = 37 → GoodEscape p len k)) :
    ValidatePath p len =
      .ok { ret := false, reason := some "RAW_UNICODE", substatus := 1002 } := by
  obtain ⟨j0, hj0, hq0, hoff0, hmin⟩ := exists_first_offending p len j hq (Or.inl hb)
  rw [ValidatePath_first_offending p len hmax hbuf j0 (by omega) hq0 hoff0 hmin]
  have h128 : 128 ≤ p.getD j0 0 := by
    rcases Nat.eq_or_lt_of_le hj0 with heq | hlt
    · rw [heq]; exact hb
    · obtain ⟨h1, h2⟩ := hfirst j0 hlt
      rcases hoff0 with h | h | ⟨h, h3⟩
      · exact h
      · exact absurd h h1
      · exact absurd (h2 h) h3
  rw [verdict_high h128]
  rfl

/-- Witness of C6 (amended) on `/caf` followed by the bytes `0xC3 0xA9`. -/
theorem ValidatePath_raw_unicode_witness :
    ValidatePath [47, 99, 97, 102, 195, 169] 6 =
      .ok { ret := false, reason := some "RAW_UNICODE", substatus := 1002 } :=
  ValidatePath_raw_unicode [47, 99, 97, 102, 195, 169] 6 (by decide) (by decide) 4
    (by decide) (by decide) (by decide) (by decide)

/-- Counterexample to C7 as stated: in the bytes `/ 0xC3 0xA9 : b` the colon stands
before any `'?'`, yet the byte `0xC3` is met first and the result is `"RAW_UNICODE"`,
1002. -/
theorem ValidatePath_colon_counterexample :
    5 ≤ [47, 195, 169, 58, 98].length ∧ 5 ≤ 16384 ∧
      (3 < 5 ∧ BeforeQuery [47, 195, 169, 58, 98] 3 ∧ [47, 195, 169, 58, 98].getD 3 0 = 58) ∧
      ValidatePath [47, 195, 169, 58, 98] 5 =
        .ok { ret := false, reason := some "RAW_UNICODE", substatus := 1002 } ∧
      ValidatePath [47, 195, 169, 58, 98] 5 ≠
        .ok { ret := false, reason := some "COLON_IN_PATH", substatus := 1003 } := by
  decide

/-- C7, amended: on a URL of length at most 16384 in which a `':'` stands before the first
`'?'` with no byte `≥ 0x80` and no malformed `'%'` escape before it, `ValidatePath` returns
`false` with `"COLON_IN_PATH"` and substatus 1003. -/
theorem ValidatePath_colon (p : List Nat) (len : Nat) (hbuf : len ≤ p.length)
    (hmax : len ≤ 16384) (j : Nat) (hj : j < len) (hq : BeforeQuery p j)
    (hc : p.getD j 0 = 58)
    (hfirst : ∀ k, k < j → p.getD k 0 < 128 ∧ (p.getD k 0 = 37 → GoodEscape p len k)) :
    ValidatePath p len =
      .ok { ret := false, reason := some "COLON_IN_PATH", substatus := 1003 } := by
  obtain ⟨j0, hj0, hq0, hoff0, hmin⟩ :=
    exists_first_offending p len j hq (Or.inr (Or.inl hc))
  rw [ValidatePath_first_offending p len hmax hbuf j0 (by omega) hq0 hoff0 hmin]
  have h58 : p.getD j0 0 = 58 := by
    rcases Nat.eq_or_lt_of_le hj0 with heq | hlt
    · rw [heq]; exact hc
    · obtain ⟨h1, h2⟩ := hfirst j0 hlt
      rcases hoff0 with h | h | ⟨h, h3⟩
      · omega
      · exact h
      · exact absurd (h2 h) h3
  rw [h58, verdict_colon]
  rfl

/-- Witness of C7 (amended) on the URL `/a:b`. -/
theorem ValidatePath_colon_witness :
    ValidatePath (bytes "/a:b") 4 =
      .ok { ret := false, reason := some "COLON_IN_PATH", substatus := 1003 } :=
  ValidatePath_colon (bytes "/a:b") 4 (by decide) (by decide) 2
    (by decide) (by decide) (by decide) (by decide)

/-- Counterexample to C8 as stated: in `/a:b%2` the `'%'` is followed by a single byte and
stands before any `'?'`, yet the colon is met first and the result is `"COLON_IN_PATH"`,
1003. -/
theorem ValidatePath_bad_percent_counterexample :
    6 ≤ (bytes "/a:b%2").length ∧ 6 ≤ 16384 ∧
      (4 < 6 ∧ BeforeQuery (bytes "/a:b%2") 4 ∧ (bytes "/a:b%2").getD 4 0 = 37 ∧
        ¬ 4 + 2 < 6) ∧
      ValidatePath (bytes "/a:b%2") 6 =
        .ok { ret := false, reason := some "COLON_IN_PATH", substatus := 1003 } ∧
      ValidatePath (bytes "/a:b%2") 6 ≠
        .ok { ret := false, reason := some "BAD_PERCENT_ENCODING", substatus := 1004 } := by
  decide

/-- C8, amended: on a URL of length at most 16384, `ValidatePath` returns `false` with
`"BAD_PERCENT_ENCODING"` and substatus 1004 exactly when some `'%'` before the first `'?'`
is followed by fewer than two bytes within `len`, or by two bytes one of which is not a
hexadecimal digit, with no byte `≥ 0x80` and no `':'` before it.  A `'%'` followed by a
valid hex pair is therefore never the cause of 1004. -/
theorem ValidatePath_bad_percent (p : List Nat) (len : Nat) (hbuf : len ≤ p.length)
    (hmax : len ≤ 16384) :
    ValidatePath p len =
        .ok { ret := false, reason := some "BAD_PERCENT_ENCODING", substatus := 1004 } ↔
      ∃ j, j < len ∧ BeforeQuery p j ∧ p.getD j 0 = 37 ∧ ¬ GoodEscape p len j ∧
        ∀ k, k < j → p.getD k 0 < 128 ∧ p.getD k 0 ≠ 58 := by
  constructor
  · intro h
    rcases clean_or_first_offending p len with hclean | ⟨j, hj, hq, hoff, hmin⟩
    · rw [ValidatePath_pass_of_clean p len hmax hbuf hclean] at h
      exact absurd h (by decide)
    · rw [ValidatePath_first_offending p len hmax hbuf j hj hq hoff hmin] at h
      have hv : verdict (p.getD j 0) = PathResult.badPercent := by
        injection h
      obtain ⟨h1, h2⟩ := verdict_eq_badPercent hv
      refine ⟨j, hj, hq, ?_, ?_, ?_⟩
      · rcases hoff with h | h | ⟨h, _⟩
        · omega
        · exact absurd h h2
        · exact h
      · rcases hoff with h | h | ⟨_, h⟩
        · omega
        · exact absurd h h2
        · exact h
      · intro k hk
        have hno := hmin k hk
        unfold Offending at hno
        simp only [not_or] at hno
        exact ⟨by omega, hno.2.1⟩
  · rintro ⟨j, hj, hq, hc, hbad, hfirst⟩
    obtain ⟨j0, hj0, hq0, hoff0, hmin⟩ :=
      exists_first_offending p len j hq (Or.inr (Or.inr ⟨hc, hbad⟩))
    rw [ValidatePath_first_offending p len hmax hbuf j0 (by omega) hq0 hoff0 hmin]
    have h37 : p.getD j0 0 = 37 := by
      rcases Nat.eq_or_lt_of_le hj0 with heq | hlt
      · rw [heq]; exact hc
      · obtain ⟨h1, h2⟩ := hfirst j0 hlt
        rcases hoff0 with h | h | ⟨h, _⟩
        · omega
        · exact absurd h h2
        · exact h
    rw [h37, verdict_percent]
    rfl

/-- Witness of C8 (amended): `/a%2g`, whose escape has a non-hex second digit, gives 1004,
and `/a%41` does not. -/
theorem ValidatePath_bad_percent_witness :
    ValidatePath (bytes "/a%2g") 5 =
        .ok { ret := false, reason := some "BAD_PERCENT_ENCODING", substatus := 1004 } ∧
      ValidatePath (bytes "/a%41") 5 ≠
        .ok { ret := false, reason := some "BAD_PERCENT_ENCODING", substatus := 1004 } :=
  ⟨(ValidatePath_bad_percent (bytes "/a%2g") 5 (by decide) (by decide)).mpr (by decide),
    fun h => absurd ((ValidatePath_bad_percent (bytes "/a%41") 5 (by decide) (by decide)).mp h)
      (by decide)⟩

/-- C9: query-string exemption.  Two URLs of length at most 16384 whose first `'?'` is at
the same position `q` and which agree on the bytes `0..q` get the same result from
`ValidatePath`, and that result is the one for the prefix of length `q` that ends just before
the `'?'`. -/
theorem ValidatePath_query_exempt (p1 p2 : List Nat) (len1 len2 q : Nat)
    (hbuf1 : len1 ≤ p1.length) (hbuf2 : len2 ≤ p2.length)
    (hmax1 : len1 ≤ 16384) (hmax2 : len2 ≤ 16384) (hq1 : q < len1) (hq2 : q < len2)
    (hmark : p1.getD q 0 = 63) (hfirst : ∀ j, j < q → p1.getD j 0 ≠ 63)
    (hsame : p1.take (q + 1) = p2.take (q + 1)) :
    ∃ r, ValidatePath p1 len1 = .ok r ∧ ValidatePath p2 len2 = .ok r ∧
      ValidatePath (p1.take q) q = .ok r := by
  have heq : ∀ j, j < q + 1 → p1.getD j 0 = p2.getD j 0 := by
    intro j hj
    rw [← getD_take_of_lt p1 hj, ← getD_take_of_lt p2 hj, hsame]
  have hmark2 : p2.getD q 0 = 63 := by rw [← heq q (by omega)]; exact hmark
  have hfirst2 : ∀ j, j < q → p2.getD j 0 ≠ 63 := by
    intro j hj
    rw [← heq j (by omega)]
    exact hfirst j hj
  have hx1 : IsHex (p1.getD q 0) = false := by rw [hmark]; decide
  have hx2 : IsHex (p2.getD q 0) = false := by rw [hmark2]; decide
  have hx3 : IsHex ((p1.take q).getD q 0) = false := by rw [getD_take_self]; decide
  have hlen3 : q ≤ (p1.take q).length := by
    rw [List.length_take]
    omega
  have h12 : ∀ k, k < q → (Offending p1 len1 k ↔ Offending p2 len2 k) :=
    offending_congr p1 p2 len1 len2 q (by omega) (by omega)
      (fun j hj => heq j (by omega)) hx1 hx2
  have h13 : ∀ k, k < q → (Offending p1 len1 k ↔ Offending (p1.take q) q k) :=
    offending_congr p1 (p1.take q) len1 q q (by omega) (le_refl _)
      (fun j hj => (getD_take_of_lt p1 hj).symm) hx1 hx3
  by_cases hclean : ∀ k, k < q → ¬ Offending p1 len1 k
  · refine ⟨PathResult.pass, ?_, ?_, ?_⟩
    · exact ValidatePath_pass_of_prefix_clean p1 len1 q hmax1 hbuf1 (fun _ => hmark) hclean
    · exact ValidatePath_pass_of_prefix_clean p2 len2 q hmax2 hbuf2 (fun _ => hmark2)
        (fun k hk h => hclean k hk ((h12 k hk).mpr h))
    · exact ValidatePath_pass_of_prefix_clean (p1.take q) q q (by omega) hlen3
        (fun h => absurd h (lt_irrefl q)) (fun k hk h => hclean k hk ((h13 k hk).mpr h))
  · push_neg at hclean
    obtain ⟨k, hk, hoff⟩ := hclean
    have hbq : BeforeQuery p1 k := fun j hj => hfirst j (by omega)
    obtain ⟨j0, hj0, hq0, hoff0, hmin⟩ := exists_first_offending p1 len1 k hbq hoff
    have hj0q : j0 < q := by omega
    refine ⟨verdict (p1.getD j0 0), ?_, ?_, ?_⟩
    · exact ValidatePath_first_offending p1 len1 hmax1 hbuf1 j0 (by omega) hq0 hoff0 hmin
    · rw [heq j0 (by omega)]
      exact ValidatePath_first_offending p2 len2 hmax2 hbuf2 j0 (by omega)
        (fun j hj => hfirst2 j (by omega)) ((h12 j0 hj0q).mp hoff0)
        (fun k hk h => hmin k hk ((h12 k (by omega)).mpr h))
    · rw [← getD_take_of_lt p1 hj0q]
      exact ValidatePath_first_offending (p1.take q) q (by omega) hlen3 j0 hj0q
        (fun j hj => by rw [getD_take_of_lt p1 (by omega)]; exact hfirst j (by omega))
        ((h13 j0 hj0q).mp hoff0)
        (fun k hk h => hmin k hk ((h13 k (by omega)).mpr h))

/-- Witness of C9: `/a?x:y` and `/a?` get the result of the prefix `/a`, which passes. -/
theorem ValidatePath_query_exempt_witness :
    ValidatePath (bytes "/a?x:y") 6 = .ok PathResult.pass ∧
      ValidatePath (bytes "/a?") 3 = .ok PathResult.pass ∧
      ValidatePath ((bytes "/a?x:y").take 2) 2 = .ok PathResult.pass := by
  obtain ⟨r, h1, h2, h3⟩ :=
    ValidatePath_query_exempt (bytes "/a?x:y") (bytes "/a?") 6 3 2 (by decide) (by decide)
      (by decide) (by decide) (by decide) (by decide) (by decide) (by decide) (by decide)
  have hp : ValidatePath ((bytes "/a?x:y").take 2) 2 = .ok PathResult.pass := by decide
  rw [hp] at h3
  cases h3
  exact ⟨h1, h2, hp⟩

/-! ## The host classifier -/

/-- C4: exact characterisation of the host classifier.  On a host value whose non-null
pointer refers to at least `len` bytes (`len` a `USHORT`), `IsIpHost` returns `true` when the
host is null or `len = 0`, or its first byte is `'['`, or every byte before its first `':'`
is a decimal digit or `'.'`, and returns `false` otherwise. -/
theorem IsIpHost_iff (host : Option (List Nat)) (len : Nat) (hmax : len < 65536)
    (hbuf : ∀ h, host = some h → len ≤ h.length) :
    (IpLiteral host len → IsIpHost host len = .ok true) ∧
      (¬ IpLiteral host len → IsIpHost host len = .ok false) := by
  obtain ⟨b, hb, hiff⟩ := IsIpHost_spec host len hmax hbuf
  constructor
  · intro h
    rw [hb, hiff.mpr h]
  · intro h
    cases b
    · exact hb
    · exact absurd (hiff.mp rfl) h

/-- Witness of C4: `127.0.0.1`, `[::1]`, the empty host and the absent host are IP
literals; `example.com` and `4chan.org` are not. -/
theorem IsIpHost_iff_witness :
    IsIpHost (some (bytes "127.0.0.1")) 9 = .ok true ∧
      IsIpHost (some (bytes "[::1]")) 5 = .ok true ∧
      IsIpHost (some (bytes "")) 0 = .ok true ∧
      IsIpHost none 0 = .ok true ∧
      IsIpHost (some (bytes "example.com")) 11 = .ok false ∧
      IsIpHost (some (bytes "4chan.org")) 9 = .ok false :=
  ⟨(IsIpHost_iff (some (bytes "127.0.0.1")) 9 (by decide) (by decide)).1 (by decide),
    (IsIpHost_iff (some (bytes "[::1]")) 5 (by decide) (by decide)).1 (by decide),
    (IsIpHost_iff (some (bytes "")) 0 (by decide) (by decide)).1 (by decide),
    (IsIpHost_iff none 0 (by decide) (by decide)).1 (by decide),
    (IsIpHost_iff (some (bytes "example.com")) 11 (by decide) (by decide)).2 (by decide),
    (IsIpHost_iff (some (bytes "4chan.org")) 9 (by decide) (by decide)).2 (by decide)⟩

/-! ## The request hook -/

/-- Counterexample to C3 as stated: a request whose raw URL has length 0 and whose Host is
`127.0.0.1`.  `ValidatePath` reports no violation on the empty URL and `IsIpHost` is true
for the host, yet the hook returns `RQ_NOTIFICATION_CONTINUE` with the world unchanged:
the decision is `Allow`, not `Block("IP_HOST", 1005)`. -/
theorem OnBeginRequest_rule_counterexample :
    ValidatePath [] 0 = .ok PathResult.pass ∧
      IsIpHost (some (bytes "127.0.0.1")) 9 = .ok true ∧
      OnBeginRequest ⟨true, [], [], [], none⟩
          ⟨some ⟨some ⟨some [], 0⟩, some (bytes "127.0.0.1"), 9⟩, none, 0⟩ =
        .ok (.RQ_NOTIFICATION_CONTINUE, ⟨true, [], [], [], none⟩) ∧
      requestDecision ⟨true, [], [], [], none⟩
          ⟨some ⟨some ⟨some [], 0⟩, some (bytes "127.0.0.1"), 9⟩, none, 0⟩ =
        .ok Decision.Allow := by
  decide

/-- C3, amended: for every request that carries a raw URL in a buffer of at least
`RawUrlLength` bytes, with a Host header that may be absent, both checks return and the
decision is: `Allow` when the URL length is 0; otherwise `Block` with the reason and
substatus of `ValidatePath` when it reports a violation; otherwise `Block("IP_HOST", 1005)`
when `IsIpHost` is true for the Host header; otherwise `Allow`. -/
theorem OnBeginRequest_rule (w : World) (ctx : IHttpContext) (request : IHttpRequest)
    (req : HTTP_REQUEST) (p : List Nat) (hreq : ctx.request = some request)
    (hraw : request.rawHttpRequest = some req) (hurl : req.pRawUrl = some p)
    (hbuf : req.RawUrlLength ≤ p.length) (hmax : request.hostLen < 65536)
    (hhost : ∀ h, request.host = some h → request.hostLen ≤ h.length) :
    ∃ r isIp, ValidatePath p req.RawUrlLength = .ok r ∧
      IsIpHost request.host request.hostLen = .ok isIp ∧
      (isIp = true ↔ IpLiteral request.host request.hostLen) ∧
      requestDecision w ctx = .ok
        (if req.RawUrlLength = 0 then Decision.Allow
         else if r.ret = false then Decision.Block r.reason r.substatus
         else if isIp = true then Decision.Block (some "IP_HOST") 1005
         else Decision.Allow) := by
  obtain ⟨r, hr⟩ := ValidatePath_total p req.RawUrlLength hbuf
  obtain ⟨isIp, hb, hiff⟩ := IsIpHost_spec request.host request.hostLen hmax hhost
  exact ⟨r, isIp, hr, hb, hiff, requestDecision_eq w ctx request req p hreq hraw hurl r hr isIp hb⟩

/-- Witness of C3 (amended): the request `/index.html` with Host `203.0.113.5` is blocked
with `"IP_HOST"`, 1005. -/
theorem OnBeginRequest_rule_witness :
    requestDecision ⟨true, [], [], [], none⟩
        ⟨some ⟨some ⟨some (bytes "/index.html"), 11⟩, some (bytes "203.0.113.5"), 11⟩,
          none, 0⟩ = .ok (Decision.Block (some "IP_HOST") 1005) := by
  obtain ⟨r, isIp, hr, hb, _, hd⟩ :=
    OnBeginRequest_rule ⟨true, [], [], [], none⟩
      ⟨some ⟨some ⟨some (bytes "/index.html"), 11⟩, some (bytes "203.0.113.5"), 11⟩, none, 0⟩
      ⟨some ⟨some (bytes "/index.html"), 11⟩, some (bytes "203.0.113.5"), 11⟩
      ⟨some (bytes "/index.html"), 11⟩ (bytes "/index.html") rfl rfl rfl
      (by decide) (by decide) (by decide)
  have h1 : ValidatePath (bytes "/index.html") 11 = .ok PathResult.pass := by decide
  have h2 : IsIpHost (some (bytes "203.0.113.5")) 11 = .ok true := by decide
  rw [h1] at hr
  rw [h2] at hb
  cases hr
  cases hb
  exact hd

/-- C10: short-circuit, single-cause diagnostics.  When `ValidatePath` reports a violation
on the request's URL, the decision is `Block` with exactly the reason and substatus that
`ValidatePath` produced, which is one of the four pairs 1001..1004, and it is not a `Block`
with substatus 1005; this holds for every Host header value. -/
theorem OnBeginRequest_path_violation (w : World) (ctx : IHttpContext)
    (request : IHttpRequest) (req : HTTP_REQUEST) (p : List Nat)
    (hreq : ctx.request = some request) (hraw : request.rawHttpRequest = some req)
    (hurl : req.pRawUrl = some p) (r : PathResult)
    (hv : ValidatePath p req.RawUrlLength = .ok r) (hfail : r.ret = false) :
    requestDecision w ctx = .ok (Decision.Block r.reason r.substatus) ∧
      ((r.reason = some "URL_TOO_LONG" ∧ r.substatus = 1001) ∨
        (r.reason = some "RAW_UNICODE" ∧ r.substatus = 1002) ∨
        (r.reason = some "COLON_IN_PATH" ∧ r.substatus = 1003) ∨
        (r.reason = some "BAD_PERCENT_ENCODING" ∧ r.substatus = 1004)) ∧
      ∀ reason, requestDecision w ctx ≠ .ok (Decision.Block reason 1005) := by
  have hlen : req.RawUrlLength ≠ 0 := by
    intro h0
    rw [h0, ValidatePath_zero] at hv
    cases hv
    exact Bool.noConfusion hfail
  have hcases := ValidatePath_result_cases p req.RawUrlLength r hv
  have hpair : (r.reason = some "URL_TOO_LONG" ∧ r.substatus = 1001) ∨
      (r.reason = some "RAW_UNICODE" ∧ r.substatus = 1002) ∨
      (r.reason = some "COLON_IN_PATH" ∧ r.substatus = 1003) ∨
      (r.reason = some "BAD_PERCENT_ENCODING" ∧ r.substatus = 1004) := by
    rcases hcases with h | h | h | h | h
    · rw [h] at hfail; exact Bool.noConfusion hfail
    · left; rw [h]; exact ⟨rfl, rfl⟩
    · right; left; rw [h]; exact ⟨rfl, rfl⟩
    · right; right; left; rw [h]; exact ⟨rfl, rfl⟩
    · right; right; right; rw [h]; exact ⟨rfl, rfl⟩
  have hdec : requestDecision w ctx = .ok (Decision.Block r.reason r.substatus) := by
    unfold requestDecision OnBeginRequest
    rw [hreq]
    simp only []
    rw [hraw]
    simp only []
    rw [hurl]
    simp only []
    rw [if_neg hlen, hv]
    simp [hfail, decisionOf_BlockRequest]
  refine ⟨hdec, hpair, fun reason heq => ?_⟩
  rw [hdec] at heq
  injection heq with heq
  injection heq with _ hsub
  rcases hpair with h | h | h | h <;> omega

/-- Witness of C10 on the request `/a:b` with Host `203.0.113.5`. -/
theorem OnBeginRequest_path_violation_witness :
    requestDecision ⟨true, [], [], [], none⟩
        ⟨some ⟨some ⟨some (bytes "/a:b"), 4⟩, some (bytes "203.0.113.5"), 11⟩, none, 0⟩ =
      .ok (Decision.Block (some "COLON_IN_PATH") 1003) ∧
      (((some "COLON_IN_PATH" : Option String) = some "URL_TOO_LONG" ∧ (1003 : Nat) = 1001) ∨
        ((some "COLON_IN_PATH" : Option String) = some "RAW_UNICODE" ∧ (1003 : Nat) = 1002) ∨
        ((some "COLON_IN_PATH" : Option String) = some "COLON_IN_PATH" ∧
          (1003 : Nat) = 1003) ∨
        ((some "COLON_IN_PATH" : Option String) = some "BAD_PERCENT_ENCODING" ∧
          (1003 : Nat) = 1004)) ∧
      ∀ reason, requestDecision ⟨true, [], [], [], none⟩
        ⟨some ⟨some ⟨some (bytes "/a:b"), 4⟩, some (bytes "203.0.113.5"), 11⟩, none, 0⟩ ≠
          .ok (Decision.Block reason 1005) :=
  OnBeginRequest_path_violation ⟨true, [], [], [], none⟩
    ⟨some ⟨some ⟨some (bytes "/a:b"), 4⟩, some (bytes "203.0.113.5"), 11⟩, none, 0⟩
    ⟨some ⟨some (bytes "/a:b"), 4⟩, some (bytes "203.0.113.5"), 11⟩
    ⟨some (bytes "/a:b"), 4⟩ (bytes "/a:b") rfl rfl rfl PathResult.colonInPath
    (by decide) rfl

/-! ## Diagnostics of the path validator -/

/-- C15: the earliest offending byte decides the code.  On a URL of length at most 16384
whose smallest offending position before the first `'?'` is `j`, `ValidatePath` returns
`false` with `"RAW_UNICODE"`, 1002 when the byte at `j` is `≥ 0x80`, with `"COLON_IN_PATH"`,
1003 when it is `':'`, and with `"BAD_PERCENT_ENCODING"`, 1004 when it is `'%'`. -/
theorem ValidatePath_earliest_decides (p : List Nat) (len : Nat) (hbuf : len ≤ p.length)
    (hmax : len ≤ 16384) (j : Nat) (hj : j < len) (hq : BeforeQuery p j)
    (hoff : Offending p len j) (hmin : ∀ k, k < j → ¬ Offending p len k) :
    (128 ≤ p.getD j 0 → ValidatePath p len =
        .ok { ret := false, reason := some "RAW_UNICODE", substatus := 1002 }) ∧
      (p.getD j 0 = 58 → ValidatePath p len =
        .ok { ret := false, reason := some "COLON_IN_PATH", substatus := 1003 }) ∧
      (p.getD j 0 = 37 → ValidatePath p len =
        .ok { ret := false, reason := some "BAD_PERCENT_ENCODING", substatus := 1004 }) := by
  have hv := ValidatePath_first_offending p len hmax hbuf j hj hq hoff hmin
  refine ⟨fun h => ?_, fun h => ?_, fun h => ?_⟩
  · rw [hv, verdict_high h]; rfl
  · rw [hv, h, verdict_colon]; rfl
  · rw [hv, h, verdict_percent]; rfl

/-- Witness of C15 on `/a%41%zz:` followed by the byte `0xC3`: the valid escape is skipped
and the malformed escape at position 5 decides, before the colon and the high byte. -/
theorem ValidatePath_earliest_decides_witness :
    ValidatePath [47, 97, 37, 52, 49, 37, 122, 122, 58, 195] 10 =
      .ok { ret := false, reason := some "BAD_PERCENT_ENCODING", substatus := 1004 } :=
  (ValidatePath_earliest_decides [47, 97, 37, 52, 49, 37, 122, 122, 58, 195] 10 (by decide)
    (by decide) 5 (by decide) (by decide) (by decide) (by decide)).2.2 (by decide)

/-- C18: truncated escape at the end of the path.  On a URL of length at most 16384 that
holds no `'?'` and whose last or second-to-last byte is `'%'`, `ValidatePath` returns and
its result is a violation. -/
theorem ValidatePath_truncated_escape (p : List Nat) (len : Nat) (hbuf : len ≤ p.length)
    (hmax : len ≤ 16384) (hnoq : ∀ i, i < len → p.getD i 0 ≠ 63)
    (hpct : (1 ≤ len ∧ p.getD (len - 1) 0 = 37) ∨ (2 ≤ len ∧ p.getD (len - 2) 0 = 37)) :
    ∃ r, ValidatePath p len = .ok r ∧ r.ret = false := by
  have key : ∀ j, j < len → len ≤ j + 2 → p.getD j 0 = 37 →
      ∃ r, ValidatePath p len = .ok r ∧ r.ret = false := by
    intro j hj hend hc
    have hq : BeforeQuery p j := fun k hk => hnoq k (by omega)
    have hoff : Offending p len j := by
      refine Or.inr (Or.inr ⟨hc, ?_⟩)
      unfold GoodEscape
      omega
    obtain ⟨j0, hj0, hq0, hoff0, hmin⟩ := exists_first_offending p len j hq hoff
    exact ⟨_, ValidatePath_first_offending p len hmax hbuf j0 (by omega) hq0 hoff0 hmin,
      verdict_ret _⟩
  rcases hpct with ⟨h1, h2⟩ | ⟨h1, h2⟩
  · exact key (len - 1) (by omega) (by omega) h2
  · exact key (len - 2) (by omega) (by omega) h2

/-- Witness of C18 on `/a%4`, whose `'%'` is the second-to-last byte. -/
theorem ValidatePath_truncated_escape_witness :
    ∃ r, ValidatePath (bytes "/a%4") 4 = .ok r ∧ r.ret = false :=
  ValidatePath_truncated_escape (bytes "/a%4") 4 (by decide) (by decide) (by decide)
    (by decide)

/-- C17: closed, consistent diagnostics.  On a URL held in a buffer of at least `len` bytes
`ValidatePath` returns either `true` with `reason = nullptr` and `substatus = 0`, or `false`
with one of the four pairs `("URL_TOO_LONG", 1001)`, `("RAW_UNICODE", 1002)`,
`("COLON_IN_PATH", 1003)`, `("BAD_PERCENT_ENCODING", 1004)`; and every `Block` decision of
the hook carries one of those four pairs or `("IP_HOST", 1005)`. -/
theorem diagnostics_closed (p : List Nat) (len : Nat) (hbuf : len ≤ p.length) :
    (∃ r, ValidatePath p len = .ok r ∧
      (r = { ret := true, reason := none, substatus := 0 } ∨
        r = { ret := false, reason := some "URL_TOO_LONG", substatus := 1001 } ∨
        r = { ret := false, reason := some "RAW_UNICODE", substatus := 1002 } ∨
        r = { ret := false, reason := some "COLON_IN_PATH", substatus := 1003 } ∨
        r = { ret := false, reason := some "BAD_PERCENT_ENCODING", substatus := 1004 })) ∧
      ∀ (w : World) (ctx : IHttpContext) (reason : Option String) (code : Nat),
        requestDecision w ctx = .ok (Decision.Block reason code) →
          (reason = some "URL_TOO_LONG" ∧ code = 1001) ∨
          (reason = some "RAW_UNICODE" ∧ code = 1002) ∨
          (reason = some "COLON_IN_PATH" ∧ code = 1003) ∨
          (reason = some "BAD_PERCENT_ENCODING" ∧ code = 1004) ∨
          (reason = some "IP_HOST" ∧ code = 1005) := by
  constructor
  · obtain ⟨r, hr⟩ := ValidatePath_total p len hbuf
    exact ⟨r, hr, ValidatePath_result_cases p len r hr⟩
  · intro w ctx reason code h
    exact block_pair_cases w ctx reason code h

/-- Witness of C17 on the URL `/a%2g`. -/
theorem diagnostics_closed_witness :
    (∃ r, ValidatePath (bytes "/a%2g") 5 = .ok r ∧
      (r = { ret := true, reason := none, substatus := 0 } ∨
        r = { ret := false, reason := some "URL_TOO_LONG", substatus := 1001 } ∨
        r = { ret := false, reason := some "RAW_UNICODE", substatus := 1002 } ∨
        r = { ret := false, reason := some "COLON_IN_PATH", substatus := 1003 } ∨
        r = { ret := false, reason := some "BAD_PERCENT_ENCODING", substatus := 1004 })) ∧
      ∀ (w : World) (ctx : IHttpContext) (reason : Option String) (code : Nat),
        requestDecision w ctx = .ok (Decision.Block reason code) →
          (reason = some "URL_TOO_LONG" ∧ code = 1001) ∨
          (reason = some "RAW_UNICODE" ∧ code = 1002) ∨
          (reason = some "COLON_IN_PATH" ∧ code = 1003) ∨
          (reason = some "BAD_PERCENT_ENCODING" ∧ code = 1004) ∨
          (reason = some "IP_HOST" ∧ code = 1005) :=
  diagnostics_closed (bytes "/a%2g") 5 (by decide)

/-! ## Logging -/

/-- C11: a log entry is requested exactly when the decision is `Block`.  On a request whose
buffers hold their declared lengths the hook returns, and either the decision is `Allow` and
the world (log file and list of `LogBlockedUrl` calls included) is unchanged, or the decision
is `Block` and exactly one `LogBlockedUrl` call was added, made with the request's raw URL
and length, the reason tag of the decision, and the remote address with its length cast to
`USHORT`. -/
theorem OnBeginRequest_logs_iff_block (w : World) (ctx : IHttpContext)
    (hwf : ContextInBuffer ctx) :
    ∃ out, OnBeginRequest w ctx = .ok out ∧
      ((decisionOf out = Decision.Allow ∧ out.2 = w) ∨
        ∃ request req reason code, ctx.request = some request ∧
          request.rawHttpRequest = some req ∧
          decisionOf out = Decision.Block reason code ∧
          out.2.logCalls = w.logCalls ++
            [⟨req.pRawUrl, req.RawUrlLength, reason, ctx.ip, ctx.ipLen % 65536⟩]) := by
  obtain ⟨out, hout⟩ := OnBeginRequest_total w ctx hwf
  refine ⟨out, hout, ?_⟩
  rcases OnBeginRequest_cases w ctx out hout with h1 | ⟨request, req, p, hreq, hraw, _, _, h1⟩
  · left
    rw [h1]
    exact ⟨rfl, rfl⟩
  · right
    rcases h1 with ⟨r, _, _, h1⟩ | ⟨_, _, h1⟩
    · refine ⟨request, req, r.reason, r.substatus, hreq, hraw, ?_, ?_⟩
      · rw [h1, decisionOf_BlockRequest]
      · rw [h1, BlockRequest_logCalls]
    · refine ⟨request, req, some "IP_HOST", SUBSTATUS_IP_HOST, hreq, hraw, ?_, ?_⟩
      · rw [h1, decisionOf_BlockRequest]
      · rw [h1, BlockRequest_logCalls]

/-- Witness of C11 on the request `/a:b` with Host `example.com` from `10.0.0.1`. -/
theorem OnBeginRequest_logs_iff_block_witness :
    ∃ out, OnBeginRequest ⟨true, bytes "2026-01-01 00:00:00", [], [], none⟩
        ⟨some ⟨some ⟨some (bytes "/a:b"), 4⟩, some (bytes "example.com"), 11⟩,
          some (bytes "10.0.0.1"), 8⟩ = .ok out ∧
      ((decisionOf out = Decision.Allow ∧
          out.2 = ⟨true, bytes "2026-01-01 00:00:00", [], [], none⟩) ∨
        ∃ request req reason code,
          (some ⟨some ⟨some (bytes "/a:b"), 4⟩, some (bytes "example.com"), 11⟩ :
            Option IHttpRequest) = some request ∧
          request.rawHttpRequest = some req ∧
          decisionOf out = Decision.Block reason code ∧
          out.2.logCalls = [] ++
            [⟨req.pRawUrl, req.RawUrlLength, reason, some (bytes "10.0.0.1"), 8 % 65536⟩]) :=
  OnBeginRequest_logs_iff_block ⟨true, bytes "2026-01-01 00:00:00", [], [], none⟩
    ⟨some ⟨some ⟨some (bytes "/a:b"), 4⟩, some (bytes "example.com"), 11⟩,
      some (bytes "10.0.0.1"), 8⟩
    (by
      intro request req p h1 h2 h3
      cases h1
      cases h2
      cases h3
      decide)

/-- C12: the decision is a function of the request's URL and Host alone.  Two runs of the
hook on the same request give the same decision, whatever the two worlds (log openable or
not, any log contents) and the two remote addresses are; and in a world whose log cannot be
opened `LogBlockedUrl` leaves the log file as it was while `BlockRequest` still yields the
`Block` decision with the reason and substatus it was given. -/
theorem decision_depends_on_request_only (w1 w2 : World) (ctx1 ctx2 : IHttpContext)
    (hsame : ctx1.request = ctx2.request) :
    requestDecision w1 ctx1 = requestDecision w2 ctx2 ∧
      ∀ (req : HTTP_REQUEST) (reason : Option String) (substatus : Nat)
        (ip : Option (List Nat)) (ipLen : Nat), w1.logOpens = false →
          (LogBlockedUrl w1 req.pRawUrl req.RawUrlLength reason ip ipLen).logFile =
              w1.logFile ∧
            (BlockRequest w1 req reason substatus ip ipLen).2.logFile = w1.logFile ∧
            decisionOf (BlockRequest w1 req reason substatus ip ipLen) =
              Decision.Block reason substatus := by
  refine ⟨requestDecision_congr w1 w2 ctx1 ctx2 hsame, ?_⟩
  intro req reason substatus ip ipLen hclosed
  refine ⟨LogBlockedUrl_closed w1 _ _ _ _ _ hclosed, ?_, decisionOf_BlockRequest _ _ _ _ _ _⟩
  unfold BlockRequest
  exact LogBlockedUrl_closed w1 _ _ _ _ _ hclosed

/-- Witness of C12: the request `/a:b` with Host `example.com`, once with a log that cannot
be opened and no remote address, once with a log that opens and the remote address
`10.0.0.1`. -/
theorem decision_depends_on_request_only_witness :
    requestDecision ⟨false, [], [], [], none⟩
        ⟨some ⟨some ⟨some (bytes "/a:b"), 4⟩, some (bytes "example.com"), 11⟩, none, 0⟩ =
      requestDecision ⟨true, bytes "2026-01-01 00:00:00", [1, 2, 3], [], none⟩
        ⟨some ⟨some ⟨some (bytes "/a:b"), 4⟩, some (bytes "example.com"), 11⟩,
          some (bytes "10.0.0.1"), 8⟩ :=
  (decision_depends_on_request_only ⟨false, [], [], [], none⟩
    ⟨true, bytes "2026-01-01 00:00:00", [1, 2, 3], [], none⟩
    ⟨some ⟨some ⟨some (bytes "/a:b"), 4⟩, some (bytes "example.com"), 11⟩, none, 0⟩
    ⟨some ⟨some ⟨some (bytes "/a:b"), 4⟩, some (bytes "example.com"), 11⟩,
      some (bytes "10.0.0.1"), 8⟩ rfl).1

/-- C13: format of the log line.  With the log open, `LogBlockedUrl` called with a raw URL
of at least `urlLen` bytes and a non-null reason appends exactly
`"["`, the timestamp text, `"] "`, then `"[IP "`, the `ipLen` address bytes and `"] "` when
the remote address is non-null with `ipLen ≠ 0` (nothing when it is null or `ipLen = 0`),
then `"["`, the reason, `"] "`, then the first `urlLen` bytes of the raw URL unchanged, then
CR LF. -/
theorem LogBlockedUrl_line (w : World) (url : List Nat) (urlLen : Nat) (reason : String)
    (remoteIp : Option (List Nat)) (ipLen : Nat) (hopen : w.logOpens = true)
    (hlen : urlLen ≤ url.length) :
    (url.take urlLen).length = urlLen ∧
      (∀ addr, remoteIp = some addr → ipLen ≠ 0 →
        (LogBlockedUrl w (some url) urlLen (some reason) remoteIp ipLen).logFile =
          w.logFile ++ (bytes "[" ++ w.timebuf ++ bytes "] " ++
            (bytes "[IP " ++ addr.take ipLen ++ bytes "] ") ++
            (bytes "[" ++ bytes reason ++ bytes "] ") ++ url.take urlLen ++ [13, 10])) ∧
      (remoteIp = none ∨ ipLen = 0 →
        (LogBlockedUrl w (some url) urlLen (some reason) remoteIp ipLen).logFile =
          w.logFile ++ (bytes "[" ++ w.timebuf ++ bytes "] " ++
            (bytes "[" ++ bytes reason ++ bytes "] ") ++ url.take urlLen ++ [13, 10])) := by
  refine ⟨List.length_take_of_le hlen, ?_, ?_⟩
  · intro addr haddr hip
    unfold LogBlockedUrl
    simp [hopen, haddr, hip]
  · intro h
    unfold LogBlockedUrl
    rcases h with h | h
    · simp [hopen, h]
    · cases remoteIp <;> simp [hopen, h]

/-- Witness of C13: the line logged for `/a?x:y` blocked as `"IP_HOST"` from `10.0.0.1`. -/
theorem LogBlockedUrl_line_witness :
    (LogBlockedUrl ⟨true, bytes "2026-01-01 00:00:00", [], [], none⟩ (some (bytes "/a?x:y")) 6
        (some "IP_HOST") (some (bytes "10.0.0.1")) 8).logFile =
      [] ++ (bytes "[" ++ bytes "2026-01-01 00:00:00" ++ bytes "] " ++
        (bytes "[IP " ++ (bytes "10.0.0.1").take 8 ++ bytes "] ") ++
        (bytes "[" ++ bytes "IP_HOST" ++ bytes "] ") ++ (bytes "/a?x:y").take 6 ++ [13, 10]) :=
  (LogBlockedUrl_line ⟨true, bytes "2026-01-01 00:00:00", [], [], none⟩ (bytes "/a?x:y") 6
    "IP_HOST" (some (bytes "10.0.0.1")) 8 rfl (by decide)).2.1 (bytes "10.0.0.1") rfl
    (by decide)

/-- Counterexample to C14 as stated: `[fe80::1]` and `1.2.3.4:http` both contain letters,
yet `IsIpHost` returns `true` for them: the first starts with `'['`, and in the second the
scan stops at the `':'` before reaching a letter. -/
theorem IsIpHost_letter_counterexample :
    (1 < 9 ∧ IsLetter ((bytes "[fe80::1]").getD 1 0) ∧
        IsIpHost (some (bytes "[fe80::1]")) 9 = .ok true) ∧
      (8 < 12 ∧ IsLetter ((bytes "1.2.3.4:http").getD 8 0) ∧
        IsIpHost (some (bytes "1.2.3.4:http")) 12 = .ok true) := by
  decide

/-- C14, amended: a Host header value whose first byte is not `'['` and which holds a
letter before its first `':'` (anywhere when it has no `':'`) is classified as not
IP-literal: `IsIpHost` returns `false`, whatever the other bytes are. -/
theorem IsIpHost_letter (h : List Nat) (len : Nat) (hmax : len < 65536)
    (hbuf : len ≤ h.length) (i : Nat) (hi : i < len) (hletter : IsLetter (h.getD i 0))
    (hcolon : ∀ j, j ≤ i → h.getD j 0 ≠ 58) (hbracket : h.getD 0 0 ≠ 91) :
    IsIpHost (some h) len = .ok false := by
  obtain ⟨b, hb, hiff⟩ := IsIpHost_spec (some h) len hmax (fun h1 heq => by
    cases heq; exact hbuf)
  have hnot : ¬ IpLiteral (some h) len := by
    unfold IpLiteral
    simp only []
    rintro (h0 | h0 | h0)
    · omega
    · exact hbracket h0
    · have hd := h0 i hi hcolon
      unfold DigitOrDot at hd
      unfold IsLetter at hletter
      omega
  cases b
  · exact hb
  · exact absurd (hiff.mp rfl) hnot

/-- Witness of C14 (amended) on the ill-formed host `4chan..org:x:y`. -/
theorem IsIpHost_letter_witness :
    IsIpHost (some (bytes "4chan..org:x:y")) 14 = .ok false :=
  IsIpHost_letter (bytes "4chan..org:x:y") 14 (by decide) (by decide) 1 (by decide)
    (by decide) (by decide) (by decide)

/-! ## Bounds -/

/-- C16: bounds safety of both scanners.  Every index at which `ValidatePath` reads `p` is
below the declared length `len` and every value it assigns to its 16-bit index is below 65536;
for a non-null Host of declared length `hostLen` (a `USHORT`) the same holds of `IsIpHost`.
With buffers that hold the declared lengths both functions return a value: the out-of-range
branch of a read is never taken. -/
theorem scans_in_bounds (p : List Nat) (len : Nat) (host : List Nat) (hostLen : Nat)
    (hbuf : len ≤ p.length) (hhost : hostLen ≤ host.length) (hmax : hostLen < 65536) :
    ((ValidatePath.traced p len).1 = ValidatePath p len ∧
        (∀ k, k ∈ (ValidatePath.traced p len).2.1 → k < len) ∧
        (∀ v, v ∈ (ValidatePath.traced p len).2.2 → v < 65536) ∧
        ∃ r, ValidatePath p len = .ok r) ∧
      ((IsIpHost.traced (some host) hostLen).1 = IsIpHost (some host) hostLen ∧
        (∀ k, k ∈ (IsIpHost.traced (some host) hostLen).2.1 → k < hostLen) ∧
        (∀ v, v ∈ (IsIpHost.traced (some host) hostLen).2.2 → v < 65536) ∧
        ∃ b, IsIpHost (some host) hostLen = .ok b) := by
  obtain ⟨a1, a2, a3⟩ := ValidatePath_traced_spec p len
  obtain ⟨b1, b2, b3⟩ := IsIpHost_traced_spec (some host) hostLen hmax
  obtain ⟨b, hb, _⟩ := IsIpHost_spec (some host) hostLen hmax (fun h heq => by
    cases heq; exact hhost)
  exact ⟨⟨a1, a2, a3, ValidatePath_total p len hbuf⟩, ⟨b1, b2, b3, b, hb⟩⟩

/-- Witness of C16 on the URL `/a%41?x` and the Host `127.0.0.1:80`. -/
theorem scans_in_bounds_witness :
    ((ValidatePath.traced (bytes "/a%41?x") 7).1 = ValidatePath (bytes "/a%41?x") 7 ∧
        (∀ k, k ∈ (ValidatePath.traced (bytes "/a%41?x") 7).2.1 → k < 7) ∧
        (∀ v, v ∈ (ValidatePath.traced (bytes "/a%41?x") 7).2.2 → v < 65536) ∧
        ∃ r, ValidatePath (bytes "/a%41?x") 7 = .ok r) ∧
      ((IsIpHost.traced (some (bytes "127.0.0.1:80")) 12).1 =
          IsIpHost (some (bytes "127.0.0.1:80")) 12 ∧
        (∀ k, k ∈ (IsIpHost.traced (some (bytes "127.0.0.1:80")) 12).2.1 → k < 12) ∧
        (∀ v, v ∈ (IsIpHost.traced (some (bytes "127.0.0.1:80")) 12).2.2 → v < 65536) ∧
        ∃ b, IsIpHost (some (bytes "127.0.0.1:80")) 12 = .ok b) :=
  scans_in_bounds (bytes "/a%41?x") 7 (bytes "127.0.0.1:80") 12 (by decide) (by decide)
    (by decide)

end SimpleWaf
